import Mathlib

/-!
Verification development for the `bitbucket-mcp` repository
(`src/client.ts` and `src/index-cli.ts`).

The TypeScript sources are shallowly embedded: every client operation is
modelled as a pure request-building function together with an explicit
outcome (`Except`) for its single network call, and the CLI `main`
dispatcher is modelled as a function from the argument list, the resolved
configuration and an oracle of network outcomes to an exit outcome plus
the ordered list of HTTP requests issued.

Modelling conventions (documented once here):
* JavaScript strings are Lean `String`s; `undefined` string arguments are
  collapsed to `""` because every use site in the sources only tests
  truthiness (`!s`, `if (s)`, `s || t`), for which `undefined` and `""`
  behave identically.
* `parseInt` is modelled with its leading-whitespace / sign / `0x` prefix
  semantics; `NaN` is `none`.  A numeric `limit` argument is `Option Int`
  where `none` stands for `undefined` or `NaN`, which again coincide at
  every use site (`if (limit)`).
* The WHATWG `URL` platform parser (an external collaborator of the repo)
  is modelled by `parseURLChars`: scheme, authority, hostname
  (userinfo/port stripped) and pathname (cut at `?`/`#`, defaulting to
  `/` when an authority is present).  Host case folding, percent
  decoding and dot-segment resolution are not modelled.
* Request bodies and HTTP headers are not modelled: no claim refers to
  them; a request is its method, path and query parameters.
* `console.error` diagnostics emitted while an operation is in flight are
  not modelled; only the final CLI error line matters to the claims.
-/

/-! ## JavaScript string and number helpers -/

/-- `needle.isPrefixOf hay` at every suffix: JavaScript `String.includes`
on the underlying character lists. -/
def jsIncludesL (hay needle : List Char) : Bool :=
  match hay with
  | [] => needle.isEmpty
  | _ :: t => needle.isPrefixOf hay || jsIncludesL t needle

/-- JavaScript `String.prototype.includes`. -/
def jsIncludes (s sub : String) : Bool :=
  jsIncludesL s.data sub.data

/-- JavaScript `String.prototype.startsWith`. -/
def jsStartsWith (s pre : String) : Bool :=
  pre.data.isPrefixOf s.data

/-- Whitespace skipped by JavaScript `parseInt` (ASCII subset). -/
def isJsSpace (c : Char) : Bool :=
  c == ' ' || c == '\t' || c == '\n' || c == '\x0d' || c == '\x0b' || c == '\x0c'

/-- Decimal digit value. -/
def decDigit (c : Char) : Option Nat :=
  if '0' ≤ c ∧ c ≤ '9' then some (c.toNat - 48) else none

/-- Hexadecimal digit value. -/
def hexDigit (c : Char) : Option Nat :=
  if '0' ≤ c ∧ c ≤ '9' then some (c.toNat - 48)
  else if 'a' ≤ c ∧ c ≤ 'f' then some (c.toNat - 87)
  else if 'A' ≤ c ∧ c ≤ 'F' then some (c.toNat - 55)
  else none

/-- Accumulate further digits; stops at the first non-digit. -/
def goDigits (digit : Char → Option Nat) (base acc : Nat) : List Char → Nat
  | [] => acc
  | c :: t =>
    match digit c with
    | some d => goDigits digit base (base * acc + d) t
    | none => acc

/-- Parse a non-empty run of leading digits; `none` when the first
character is not a digit (JavaScript `NaN`). -/
def takeDigits (digit : Char → Option Nat) (base : Nat) : List Char → Option Nat
  | [] => none
  | c :: t =>
    match digit c with
    | some d => some (goDigits digit base d t)
    | none => none

/-- Unsigned part of `parseInt`: `0x`/`0X` prefix selects base 16. -/
def jsParseIntNat : List Char → Option Nat
  | '0' :: x :: t =>
    if x == 'x' || x == 'X' then takeDigits hexDigit 16 t
    else takeDigits decDigit 10 ('0' :: x :: t)
  | t => takeDigits decDigit 10 t

/-- Signed part of `parseInt`. -/
def jsParseIntCore : List Char → Option Int
  | '-' :: t => (jsParseIntNat t).map (fun n => -(n : Int))
  | '+' :: t => (jsParseIntNat t).map (fun n => (n : Int))
  | t => (jsParseIntNat t).map (fun n => (n : Int))

/-- JavaScript `parseInt` with radix inferred; `none` models `NaN`. -/
def jsParseInt (s : String) : Option Int :=
  jsParseIntCore (s.data.dropWhile isJsSpace)

/-- Truthiness of an optional JavaScript string (`undefined` and `""` are
falsy). -/
def optTruthy : Option String → Bool
  | none => false
  | some s => !(s == "")

/-! ## HTTP request and error model -/

/-- HTTP method of a request. -/
inductive Method where
  | get
  | post
deriving DecidableEq, Repr

/-- One HTTP request issued by the client: method, path, query
parameters in insertion order.  (Bodies and headers are unmodelled.) -/
structure ApiRequest where
  method : Method
  path : String
  params : List (String × String)
deriving DecidableEq, Repr

/-- Minimal JSON values, for the server-provided error body. -/
inductive Json where
  | null
  | bool (b : Bool)
  | num (n : Int)
  | str (s : String)
  | arr (xs : List Json)
  | obj (fields : List (String × Json))

/-- Escape a string for `JSON.stringify` (quotes and backslashes). -/
def jsonEscape (s : String) : String :=
  String.mk (s.data.foldr
    (fun c acc =>
      if c == '"' then '\\' :: '"' :: acc
      else if c == '\\' then '\\' :: '\\' :: acc
      else c :: acc) [])

mutual

/-- `JSON.stringify` on the minimal JSON model. -/
def Json.stringify : Json → String
  | .null => "null"
  | .bool b => if b then "true" else "false"
  | .num n => toString n
  | .str s => "\"" ++ jsonEscape s ++ "\""
  | .arr xs => "[" ++ Json.stringifyList xs ++ "]"
  | .obj fs => "\x7b" ++ Json.stringifyFields fs ++ "\x7d"

/-- Comma-separated array elements. -/
def Json.stringifyList : List Json → String
  | [] => ""
  | [x] => Json.stringify x
  | x :: xs => Json.stringify x ++ "," ++ Json.stringifyList xs

/-- Comma-separated object fields. -/
def Json.stringifyFields : List (String × Json) → String
  | [] => ""
  | [(k, v)] => "\"" ++ jsonEscape k ++ "\":" ++ Json.stringify v
  | (k, v) :: fs =>
    "\"" ++ jsonEscape k ++ "\":" ++ Json.stringify v ++ "," ++ Json.stringifyFields fs

end

/-- The HTTP response attached to an axios error, when the server
answered at all. -/
structure HttpErrorResponse where
  status : Int
  statusText : String
  data : Json

/-- A raw failure reaching a client operation's `catch` block: an axios
transport/HTTP error (response present for non-success HTTP answers,
absent for pure transport failures), or any other thrown value rendered
as a string. -/
inductive RawError where
  | axios (response : Option HttpErrorResponse)
  | other (rendered : String)

/-- `BitbucketClient.handleAxiosError`: the single normalized error
message every operation throws (`client.ts` lines 205-213). -/
def handleAxiosErrorMsg (error : RawError) (operation : String) : String :=
  match error with
  | .axios response =>
    "Bitbucket API error in " ++ operation ++ ": " ++
      (match response with
       | some r => toString r.status ++ " " ++ r.statusText ++ " - " ++ r.data.stringify
       | none => "undefined undefined - undefined")
  | .other rendered => "Unexpected error in " ++ operation ++ ": " ++ rendered

/-- The shared `try { await this.api... } catch { handleAxiosError }`
shape of every client operation: issue exactly one request; pass a
successful response through whole, otherwise fail with the one
normalized error.  Returns the operation's result and the list of
requests issued. -/
def runClientOp (α : Type) (operation : String) (req : ApiRequest)
    (outcome : Except RawError α) : Except String α × List ApiRequest :=
  match outcome with
  | .ok a => (.ok a, [req])
  | .error e => (.error (handleAxiosErrorMsg e operation), [req])

/-! ## Request builders (one per client operation) -/

/-- `listRepositories` request (`client.ts` lines 217-237); the
`workspace` here is the effective workspace, already resolved. -/
def listRepositoriesRequest (workspace : String) (limit : Option Int)
    (nameFilter : String) : ApiRequest :=
  { method := .get
    path := "/repositories/" ++ workspace
    params :=
      (match limit with
       | some n => if n ≠ 0 then [("pagelen", toString n)] else []
       | none => []) ++
      (if nameFilter ≠ "" then [("q", "name~\"" ++ nameFilter ++ "\"")] else []) }

/-- `getRepository` request. -/
def getRepositoryRequest (workspace repo_slug : String) : ApiRequest :=
  { method := .get, path := "/repositories/" ++ workspace ++ "/" ++ repo_slug, params := [] }

/-- `getPullRequests` request (`client.ts` lines 250-269). -/
def getPullRequestsRequest (workspace repo_slug : String) (state : String)
    (limit : Option Int) : ApiRequest :=
  { method := .get
    path := "/repositories/" ++ workspace ++ "/" ++ repo_slug ++ "/pullrequests"
    params :=
      (match limit with
       | some n => if n ≠ 0 then [("pagelen", toString n)] else []
       | none => []) ++
      (if state ≠ "" then [("state", state)] else []) }

/-- `getPullRequest` request. -/
def getPullRequestRequest (workspace repo_slug pull_request_id : String) : ApiRequest :=
  { method := .get
    path := "/repositories/" ++ workspace ++ "/" ++ repo_slug ++ "/pullrequests/" ++
      pull_request_id
    params := [] }

/-- `approvePullRequest` request. -/
def approvePullRequestRequest (workspace repo_slug pull_request_id : String) : ApiRequest :=
  { method := .post
    path := "/repositories/" ++ workspace ++ "/" ++ repo_slug ++ "/pullrequests/" ++
      pull_request_id ++ "/approve"
    params := [] }

/-- `mergePullRequest` request (payload unmodelled). -/
def mergePullRequestRequest (workspace repo_slug pull_request_id : String) : ApiRequest :=
  { method := .post
    path := "/repositories/" ++ workspace ++ "/" ++ repo_slug ++ "/pullrequests/" ++
      pull_request_id ++ "/merge"
    params := [] }

/-- `declinePullRequest` request (payload unmodelled). -/
def declinePullRequestRequest (workspace repo_slug pull_request_id : String) : ApiRequest :=
  { method := .post
    path := "/repositories/" ++ workspace ++ "/" ++ repo_slug ++ "/pullrequests/" ++
      pull_request_id ++ "/decline"
    params := [] }

/-- `getPullRequestComments` request. -/
def getPullRequestCommentsRequest (workspace repo_slug pull_request_id : String) :
    ApiRequest :=
  { method := .get
    path := "/repositories/" ++ workspace ++ "/" ++ repo_slug ++ "/pullrequests/" ++
      pull_request_id ++ "/comments"
    params := [] }

/-- `getPullRequestDiff` request. -/
def getPullRequestDiffRequest (workspace repo_slug pull_request_id : String) : ApiRequest :=
  { method := .get
    path := "/repositories/" ++ workspace ++ "/" ++ repo_slug ++ "/pullrequests/" ++
      pull_request_id ++ "/diff"
    params := [] }

/-- `listPipelineRuns` request (`client.ts` lines 408-439): optional
`pagelen`, an unconditional newest-first sort, optional `q` filters. -/
def listPipelineRunsRequest (workspace repo_slug : String) (limit : Option Int)
    (status target_branch trigger_type : String) : ApiRequest :=
  { method := .get
    path := "/repositories/" ++ workspace ++ "/" ++ repo_slug ++ "/pipelines/"
    params :=
      (match limit with
       | some n => if n ≠ 0 then [("pagelen", toString n)] else []
       | none => []) ++
      [("sort", "-created_on")] ++
      (let filters :=
        (if status ≠ "" then ["state.result.name=\"" ++ status ++ "\""] else []) ++
        (if target_branch ≠ "" then ["target.ref_name=\"" ++ target_branch ++ "\""] else []) ++
        (if trigger_type ≠ "" then ["trigger.type=\"" ++ trigger_type ++ "\""] else [])
      if filters ≠ [] then [("q", String.intercalate " AND " filters)] else []) }

/-- The `encodedUuid` computation shared by all pipeline operations:
brace-wrap the identifier unless it already starts with a brace. -/
def encodedUuid (pipeline_uuid : String) : String :=
  if jsStartsWith pipeline_uuid "\x7b" then pipeline_uuid
  else "\x7b" ++ pipeline_uuid ++ "\x7d"

/-- `getPipelineRun` request (`client.ts` lines 441-459). -/
def getPipelineRunRequest (workspace repo_slug pipeline_uuid : String) : ApiRequest :=
  { method := .get
    path := "/repositories/" ++ workspace ++ "/" ++ repo_slug ++ "/pipelines/" ++
      encodedUuid pipeline_uuid
    params := [] }

/-- `runPipeline` request (target/variables payload unmodelled). -/
def runPipelineRequest (workspace repo_slug : String) : ApiRequest :=
  { method := .post
    path := "/repositories/" ++ workspace ++ "/" ++ repo_slug ++ "/pipelines/"
    params := [] }

/-- `stopPipeline` request (`client.ts` lines 510-527). -/
def stopPipelineRequest (workspace repo_slug pipeline_uuid : String) : ApiRequest :=
  { method := .post
    path := "/repositories/" ++ workspace ++ "/" ++ repo_slug ++ "/pipelines/" ++
      encodedUuid pipeline_uuid ++ "/stopPipeline"
    params := [] }

/-- `getPipelineSteps` request. -/
def getPipelineStepsRequest (workspace repo_slug pipeline_uuid : String) : ApiRequest :=
  { method := .get
    path := "/repositories/" ++ workspace ++ "/" ++ repo_slug ++ "/pipelines/" ++
      encodedUuid pipeline_uuid ++ "/steps/"
    params := [] }

/-- `getPipelineStep` request (`client.ts` lines 548-569): both the
pipeline and the step identifier are brace-encoded. -/
def getPipelineStepRequest (workspace repo_slug pipeline_uuid step_uuid : String) :
    ApiRequest :=
  { method := .get
    path := "/repositories/" ++ workspace ++ "/" ++ repo_slug ++ "/pipelines/" ++
      encodedUuid pipeline_uuid ++ "/steps/" ++ encodedUuid step_uuid
    params := [] }

/-- `getPipelineStepLogs` request. -/
def getPipelineStepLogsRequest (workspace repo_slug pipeline_uuid step_uuid : String) :
    ApiRequest :=
  { method := .get
    path := "/repositories/" ++ workspace ++ "/" ++ repo_slug ++ "/pipelines/" ++
      encodedUuid pipeline_uuid ++ "/steps/" ++ encodedUuid step_uuid ++ "/log"
    params := [] }

/-- `getPipelineStepLogTail` request (its `Range: bytes=-N` header is
unmodelled; same path as `getPipelineStepLogs`). -/
def getPipelineStepLogTailRequest (workspace repo_slug pipeline_uuid step_uuid : String) :
    ApiRequest :=
  { method := .get
    path := "/repositories/" ++ workspace ++ "/" ++ repo_slug ++ "/pipelines/" ++
      encodedUuid pipeline_uuid ++ "/steps/" ++ encodedUuid step_uuid ++ "/log"
    params := [] }

/-- `getRepositoryBranchingModel` request. -/
def getRepositoryBranchingModelRequest (workspace repo_slug : String) : ApiRequest :=
  { method := .get
    path := "/repositories/" ++ workspace ++ "/" ++ repo_slug ++ "/branching-model"
    params := [] }

/-! ## Pipeline identifier resolution (`index-cli.ts` lines 117-150) -/

/-- One pipeline run summary as consumed by the resolver. -/
structure PipelineRun where
  build_number : Int
  uuid : String
deriving DecidableEq, Repr

/-- The paginated `listPipelineRuns` response; `values` may be absent
(the source guards with `pipelines.values?.find`). -/
structure PipelinesResponse where
  values : Option (List PipelineRun)
deriving DecidableEq, Repr

/-- `pipelines.values?.find(p => p.build_number === buildNumber)`. -/
def findRun (pipelines : PipelinesResponse) (buildNumber : Int) : Option PipelineRun :=
  match pipelines.values with
  | none => none
  | some vs => vs.find? (fun p => p.build_number == buildNumber)

/-- The resolver's not-found error message (`index-cli.ts` lines 138-141). -/
def notFoundMsg (buildNumber : Int) : String :=
  "Pipeline build #" ++ toString buildNumber ++
    " not found in recent 100 pipelines. Try using the UUID directly or increase search range."

/-- `resolvePipelineIdentifier`: tokens containing a brace or dash pass
through; otherwise `parseInt` distinguishes a build-number lookup (one
`listPipelineRuns` call with limit 100) from the fallback pass-through.
`lookupOutcome` is the network outcome of the lookup call, were it made.
Returns the resolved identifier (or the propagated error) and the list
of requests issued. -/
def resolvePipelineIdentifier (workspace repo identifier : String)
    (lookupOutcome : Except RawError PipelinesResponse) :
    Except String String × List ApiRequest :=
  if jsIncludes identifier "\x7b" || jsIncludes identifier "-" then
    (.ok identifier, [])
  else
    match jsParseInt identifier with
    | some buildNumber =>
      (match runClientOp PipelinesResponse "listPipelineRuns"
          (listPipelineRunsRequest workspace repo (some 100) "" "" "") lookupOutcome with
       | (.error m, calls) => (.error m, calls)
       | (.ok pipelines, calls) =>
         match findRun pipelines buildNumber with
         | some pipeline => (.ok pipeline.uuid, calls)
         | none => (.error (notFoundMsg buildNumber), calls))
    | none => (.ok identifier, [])

/-! ## Configuration normalization (`client.ts` lines 112-159) -/

/-- The `BitbucketConfig` interface. -/
structure BitbucketConfig where
  baseUrl : String
  token : Option String := none
  username : Option String := none
  password : Option String := none
  defaultWorkspace : Option String := none
  allowDangerousCommands : Option Bool := none
  gitUsername : Option String := none
deriving DecidableEq, Repr

/-- A scheme character of the WHATWG URL grammar (letters, digits,
`+`, `-`, `.`). -/
def isSchemeChar (c : Char) : Bool :=
  c.isAlphanum || c == '+' || c == '-' || c == '.'

/-- Characters terminating the authority component. -/
def notAuthDelim (c : Char) : Bool :=
  !(c == '/' || c == '?' || c == '#')

/-- Characters terminating the path component. -/
def notPathDelim (c : Char) : Bool :=
  !(c == '?' || c == '#')

/-- Hostname within an authority: drop the userinfo (up to the last
`@`), then cut the port (first `:`). -/
def hostOfAuth (auth : List Char) : List Char :=
  ((auth.reverse.takeWhile (fun c => !(c == '@'))).reverse).takeWhile (fun c => !(c == ':'))

/-- A pathname defaults to `/` when empty (URL with an authority). -/
def pathnameOfL (p : List Char) : List Char :=
  if p.isEmpty then ['/'] else p

/-- Hostname and pathname of the part after `scheme:`.  With a `//`
authority the hostname is extracted and the pathname cut at `?`/`#`
(defaulting to `/`); otherwise the URL is opaque: no host, the rest up
to `?`/`#` is the pathname. -/
def parseAfterScheme (r : List Char) : List Char × List Char :=
  match r with
  | d1 :: d2 :: r2 =>
    if d1 == '/' && d2 == '/' then
      (hostOfAuth (r2.takeWhile notAuthDelim),
       pathnameOfL ((r2.dropWhile notAuthDelim).takeWhile notPathDelim))
    else ([], r.takeWhile notPathDelim)
  | _ => ([], r.takeWhile notPathDelim)

/-- Model of the WHATWG `new URL(...)` parser on character lists:
`some (scheme, hostname, pathname)` or `none` when the string has no
leading `scheme:` part (the constructor would throw). -/
def parseURLChars (cs : List Char) : Option (List Char × List Char × List Char) :=
  match cs.takeWhile isSchemeChar, cs.dropWhile isSchemeChar with
  | c :: s, d :: r =>
    if c.isAlpha && d == ':' then some (c :: s, parseAfterScheme r) else none
  | _, _ => none

/-- The fields of a parsed URL used by the source: `protocol` (with the
trailing colon), `hostname` and `pathname`. -/
structure URLParts where
  protocol : String
  hostname : String
  pathname : String
deriving DecidableEq, Repr

/-- String-level URL parser (model of the platform `URL` constructor). -/
def parseURL (s : String) : Option URLParts :=
  match parseURLChars s.data with
  | some (sch, host, pa) =>
    some { protocol := String.mk (sch ++ [':'])
           hostname := String.mk host
           pathname := String.mk pa }
  | none => none

/-- Remove the trailing run of `/` characters. -/
def stripTrailingSlashesL (cs : List Char) : List Char :=
  (cs.reverse.dropWhile (fun c => c == '/')).reverse

/-- `baseUrl.replace(/\/+$/, "")`. -/
def stripTrailingSlashes (s : String) : String :=
  String.mk (stripTrailingSlashesL s.data)

/-- `pathname.split("/")` on character lists. -/
def splitSlashL (cs : List Char) : List (List Char) :=
  cs.foldr
    (fun c acc =>
      if c == '/' then [] :: acc
      else
        match acc with
        | h :: t => (c :: h) :: t
        | [] => [[c]])
    [[]]

/-- `normalizeBitbucketConfig` (`client.ts` lines 131-159): extract the
workspace from `bitbucket.org` URLs and retarget them at the API host,
add the `/2.0` suffix on `api.bitbucket.org` URLs missing it, strip
trailing slashes; configurations whose base URL fails to parse are
returned unchanged. -/
def normalizeBitbucketConfig (rawConfig : BitbucketConfig) : BitbucketConfig :=
  match parseURL rawConfig.baseUrl with
  | none => rawConfig
  | some parsed =>
    let c1 :=
      if parsed.hostname == "bitbucket.org" && decide (parsed.pathname.length > 1) then
        let pathParts := (splitSlashL parsed.pathname.data).filter (fun p => decide (p.length > 0))
        let c0 :=
          match pathParts with
          | p :: _ =>
            if !(optTruthy rawConfig.defaultWorkspace) then
              { rawConfig with defaultWorkspace := some (String.mk p) }
            else rawConfig
          | [] => rawConfig
        { c0 with baseUrl := "https://api.bitbucket.org/2.0" }
      else rawConfig
    let c2 :=
      if parsed.hostname == "api.bitbucket.org" && !(jsIncludes parsed.pathname "/2.0") then
        { c1 with baseUrl := parsed.protocol ++ "//" ++ parsed.hostname ++ "/2.0" }
      else c1
    { c2 with baseUrl := stripTrailingSlashes c2.baseUrl }

/-- The `BitbucketClient` constructor (`client.ts` lines 169-193):
normalize the configuration, then require a base URL and either a token
or a username/password pair; returns the client's stored configuration. -/
def clientInit (config : BitbucketConfig) : Except String BitbucketConfig :=
  let c := normalizeBitbucketConfig config
  if c.baseUrl == "" then
    .error "baseUrl is required in BitbucketConfig"
  else if !(optTruthy c.token || (optTruthy c.username && optTruthy c.password)) then
    .error "Either token or username/password is required in BitbucketConfig"
  else
    .ok c

/-- `listRepositories` with its in-operation workspace fallback and
pre-call validation (`client.ts` lines 217-237): a missing effective
workspace throws before any request is issued, and that throw is
normalized by the same `catch` as network failures. -/
def listRepositoriesOp (config : BitbucketConfig) (workspace : String)
    (limit : Option Int) (nameFilter : String)
    (outcome : Except RawError Unit) : Except String Unit × List ApiRequest :=
  let effectiveWorkspace :=
    if workspace ≠ "" then workspace else (config.defaultWorkspace.getD "")
  if effectiveWorkspace = "" then
    (.error (handleAxiosErrorMsg
      (.other "Error: workspace parameter or defaultWorkspace config is required")
      "listRepositories"), [])
  else
    runClientOp Unit "listRepositories"
      (listRepositoriesRequest effectiveWorkspace limit nameFilter) outcome

/-! ## CLI model (`index-cli.ts` lines 155-400) -/

/-- Network outcomes available to one CLI invocation: the outcome of the
resolver's lookup call (were it made) and the outcome of the single
target operation (its response body is discarded by the model). -/
structure Oracle where
  resolveOutcome : Except RawError PipelinesResponse
  opOutcome : Except RawError Unit

/-- How one CLI invocation ends. -/
inductive MainOutcome where
  | noArgsUsage
  | unknownCommand (command : String)
  | caughtError (msg : String)
  | done
deriving DecidableEq, Repr

/-- The process exit code of an outcome: 0 only on success. -/
def exitCodeOf : MainOutcome → Nat
  | .done => 0
  | _ => 1

/-- The final line printed to standard error by an outcome (the no-args
usage banner is abbreviated to its first line). -/
def stderrOf : MainOutcome → List String
  | .noArgsUsage => ["Usage: bitbucket-cli <command> [arguments...]"]
  | .unknownCommand c => ["Unknown command: " ++ c]
  | .caughtError m => ["Error: " ++ m]
  | .done => []

/-- One CLI invocation's result: its outcome and the requests issued, in
order. -/
structure CliResult where
  outcome : MainOutcome
  calls : List ApiRequest
deriving DecidableEq, Repr

/-- The usage message thrown by each command on a missing required
positional argument (`index-cli.ts`, the per-command `throw new Error`). -/
def usageMsg : String → String
  | "list-pipelines" => "Usage: list-pipelines <workspace> <repo> [limit] [status]"
  | "get-pipeline" => "Usage: get-pipeline <workspace> <repo> <pipeline_uuid_or_build_number>"
  | "get-pipeline-steps" =>
    "Usage: get-pipeline-steps <workspace> <repo> <pipeline_uuid_or_build_number>"
  | "get-step-logs" =>
    "Usage: get-step-logs <workspace> <repo> <pipeline_uuid_or_build_number> <step_uuid>"
  | "tail-step-log" =>
    "Usage: tail-step-log <workspace> <repo> <pipeline_uuid_or_build_number> <step_uuid> [bytes]"
  | "run-pipeline" => "Usage: run-pipeline <workspace> <repo> <branch> [custom_pipeline_name]"
  | "stop-pipeline" => "Usage: stop-pipeline <workspace> <repo> <pipeline_uuid_or_build_number>"
  | "get-repo" => "Usage: get-repo <workspace> <repo>"
  | "list-prs" => "Usage: list-prs <workspace> <repo> [state] [limit]"
  | "get-pr" => "Usage: get-pr <workspace> <repo> <pr_id>"
  | "approve-pr" => "Usage: approve-pr <workspace> <repo> <pr_id>"
  | "merge-pr" => "Usage: merge-pr <workspace> <repo> <pr_id> [message] [strategy]"
  | "decline-pr" => "Usage: decline-pr <workspace> <repo> <pr_id> [message]"
  | "get-branching-model" => "Usage: get-branching-model <workspace> <repo>"
  | "get-pr-diff" => "Usage: get-pr-diff <workspace> <repo> <pr_id>"
  | "get-pr-comments" => "Usage: get-pr-comments <workspace> <repo> <pr_id>"
  | _ => ""

/-- The recognized commands that validate required positional arguments
(every recognized command except `list-repos`, which has none). -/
def commandsWithRequiredArgs : List String :=
  ["list-pipelines", "get-pipeline", "get-pipeline-steps", "get-step-logs",
   "tail-step-log", "run-pipeline", "stop-pipeline", "get-repo", "list-prs",
   "get-pr", "approve-pr", "merge-pr", "decline-pr", "get-branching-model",
   "get-pr-diff", "get-pr-comments"]

/-- All commands the `switch` recognizes. -/
def knownCommands : List String :=
  "list-repos" :: commandsWithRequiredArgs

/-- Positional argument `i` of the list after the command, with a
missing (`undefined`) argument collapsed to `""` (both are falsy at
every use site). -/
def argAt (rest : List String) (i : Nat) : String :=
  (rest.get? i).getD ""

/-- The `if (!a || !b ...)` guard of each command: all required
positional arguments are present (truthy). -/
def requiredOk (command : String) (rest : List String) : Bool :=
  match command with
  | "list-pipelines" => !(argAt rest 0 == "") && !(argAt rest 1 == "")
  | "get-pipeline" => !(argAt rest 0 == "") && !(argAt rest 1 == "") && !(argAt rest 2 == "")
  | "get-pipeline-steps" =>
    !(argAt rest 0 == "") && !(argAt rest 1 == "") && !(argAt rest 2 == "")
  | "get-step-logs" =>
    !(argAt rest 0 == "") && !(argAt rest 1 == "") && !(argAt rest 2 == "")
      && !(argAt rest 3 == "")
  | "tail-step-log" =>
    !(argAt rest 0 == "") && !(argAt rest 1 == "") && !(argAt rest 2 == "")
      && !(argAt rest 3 == "")
  | "run-pipeline" => !(argAt rest 0 == "") && !(argAt rest 1 == "") && !(argAt rest 2 == "")
  | "stop-pipeline" => !(argAt rest 0 == "") && !(argAt rest 1 == "") && !(argAt rest 2 == "")
  | "get-repo" => !(argAt rest 0 == "") && !(argAt rest 1 == "")
  | "list-prs" => !(argAt rest 0 == "") && !(argAt rest 1 == "")
  | "get-pr" => !(argAt rest 0 == "") && !(argAt rest 1 == "") && !(argAt rest 2 == "")
  | "approve-pr" => !(argAt rest 0 == "") && !(argAt rest 1 == "") && !(argAt rest 2 == "")
  | "merge-pr" => !(argAt rest 0 == "") && !(argAt rest 1 == "") && !(argAt rest 2 == "")
  | "decline-pr" => !(argAt rest 0 == "") && !(argAt rest 1 == "") && !(argAt rest 2 == "")
  | "get-branching-model" => !(argAt rest 0 == "") && !(argAt rest 1 == "")
  | "get-pr-diff" => !(argAt rest 0 == "") && !(argAt rest 1 == "") && !(argAt rest 2 == "")
  | "get-pr-comments" =>
    !(argAt rest 0 == "") && !(argAt rest 1 == "") && !(argAt rest 2 == "")
  | _ => true

/-- `limit ? parseInt(limit) : undefined` (a `NaN` result and
`undefined` coincide downstream, see the header). -/
def limitArg (s : String) : Option Int :=
  if s ≠ "" then jsParseInt s else none

/-- A command whose body is a single client operation call. -/
def simpleOp (operation : String) (req : ApiRequest)
    (outcome : Except RawError Unit) : CliResult :=
  match runClientOp Unit operation req outcome with
  | (.ok _, calls) => ⟨.done, calls⟩
  | (.error m, calls) => ⟨.caughtError m, calls⟩

/-- A pipeline command: resolve the identifier first, then run the
target operation on the resolved UUID; a resolver failure propagates to
the CLI `catch` before the target operation is attempted. -/
def resolveThen (workspace repo pipeline_id : String) (oracle : Oracle)
    (operation : String) (mkReq : String → ApiRequest) : CliResult :=
  match resolvePipelineIdentifier workspace repo pipeline_id oracle.resolveOutcome with
  | (.error m, calls1) => ⟨.caughtError m, calls1⟩
  | (.ok uuid, calls1) =>
    match runClientOp Unit operation (mkReq uuid) oracle.opOutcome with
    | (.ok _, calls2) => ⟨.done, calls1 ++ calls2⟩
    | (.error m, calls2) => ⟨.caughtError m, calls1 ++ calls2⟩

/-- The `list-repos` command body: one `listRepositories` call whose
success or failure becomes the invocation's outcome. -/
def listReposCmd (ncfg : BitbucketConfig) (ws limitStr : String)
    (oc : Except RawError Unit) : CliResult :=
  match listRepositoriesOp ncfg ws (limitArg limitStr) "" oc with
  | (.ok _, calls) => ⟨.done, calls⟩
  | (.error m, calls) => ⟨.caughtError m, calls⟩

/-- The body of the `switch (command)` in `main`, given the client's
(normalized) configuration. -/
def dispatch (command : String) (rest : List String) (ncfg : BitbucketConfig)
    (oracle : Oracle) : CliResult :=
  match command with
  | "list-pipelines" =>
    if argAt rest 0 = "" ∨ argAt rest 1 = "" then
      ⟨.caughtError (usageMsg "list-pipelines"), []⟩
    else
      simpleOp "listPipelineRuns"
        (listPipelineRunsRequest (argAt rest 0) (argAt rest 1)
          (limitArg (argAt rest 2)) (argAt rest 3) "" "")
        oracle.opOutcome
  | "get-pipeline" =>
    if argAt rest 0 = "" ∨ argAt rest 1 = "" ∨ argAt rest 2 = "" then
      ⟨.caughtError (usageMsg "get-pipeline"), []⟩
    else
      resolveThen (argAt rest 0) (argAt rest 1) (argAt rest 2) oracle
        "getPipelineRun" (getPipelineRunRequest (argAt rest 0) (argAt rest 1))
  | "get-pipeline-steps" =>
    if argAt rest 0 = "" ∨ argAt rest 1 = "" ∨ argAt rest 2 = "" then
      ⟨.caughtError (usageMsg "get-pipeline-steps"), []⟩
    else
      resolveThen (argAt rest 0) (argAt rest 1) (argAt rest 2) oracle
        "getPipelineSteps" (getPipelineStepsRequest (argAt rest 0) (argAt rest 1))
  | "get-step-logs" =>
    if argAt rest 0 = "" ∨ argAt rest 1 = "" ∨ argAt rest 2 = "" ∨ argAt rest 3 = "" then
      ⟨.caughtError (usageMsg "get-step-logs"), []⟩
    else
      resolveThen (argAt rest 0) (argAt rest 1) (argAt rest 2) oracle
        "getPipelineStepLogs"
        (fun uuid =>
          getPipelineStepLogsRequest (argAt rest 0) (argAt rest 1) uuid (argAt rest 3))
  | "tail-step-log" =>
    if argAt rest 0 = "" ∨ argAt rest 1 = "" ∨ argAt rest 2 = "" ∨ argAt rest 3 = "" then
      ⟨.caughtError (usageMsg "tail-step-log"), []⟩
    else
      resolveThen (argAt rest 0) (argAt rest 1) (argAt rest 2) oracle
        "getPipelineStepLogTail"
        (fun uuid =>
          getPipelineStepLogTailRequest (argAt rest 0) (argAt rest 1) uuid (argAt rest 3))
  | "run-pipeline" =>
    if argAt rest 0 = "" ∨ argAt rest 1 = "" ∨ argAt rest 2 = "" then
      ⟨.caughtError (usageMsg "run-pipeline"), []⟩
    else
      simpleOp "runPipeline" (runPipelineRequest (argAt rest 0) (argAt rest 1))
        oracle.opOutcome
  | "stop-pipeline" =>
    if argAt rest 0 = "" ∨ argAt rest 1 = "" ∨ argAt rest 2 = "" then
      ⟨.caughtError (usageMsg "stop-pipeline"), []⟩
    else
      resolveThen (argAt rest 0) (argAt rest 1) (argAt rest 2) oracle
        "stopPipeline" (stopPipelineRequest (argAt rest 0) (argAt rest 1))
  | "list-repos" =>
    listReposCmd ncfg (argAt rest 0) (argAt rest 1) oracle.opOutcome
  | "get-repo" =>
    if argAt rest 0 = "" ∨ argAt rest 1 = "" then
      ⟨.caughtError (usageMsg "get-repo"), []⟩
    else
      simpleOp "getRepository" (getRepositoryRequest (argAt rest 0) (argAt rest 1))
        oracle.opOutcome
  | "list-prs" =>
    if argAt rest 0 = "" ∨ argAt rest 1 = "" then
      ⟨.caughtError (usageMsg "list-prs"), []⟩
    else
      simpleOp "getPullRequests"
        (getPullRequestsRequest (argAt rest 0) (argAt rest 1) (argAt rest 2)
          (limitArg (argAt rest 3)))
        oracle.opOutcome
  | "get-pr" =>
    if argAt rest 0 = "" ∨ argAt rest 1 = "" ∨ argAt rest 2 = "" then
      ⟨.caughtError (usageMsg "get-pr"), []⟩
    else
      simpleOp "getPullRequest"
        (getPullRequestRequest (argAt rest 0) (argAt rest 1) (argAt rest 2))
        oracle.opOutcome
  | "approve-pr" =>
    if argAt rest 0 = "" ∨ argAt rest 1 = "" ∨ argAt rest 2 = "" then
      ⟨.caughtError (usageMsg "approve-pr"), []⟩
    else
      simpleOp "approvePullRequest"
        (approvePullRequestRequest (argAt rest 0) (argAt rest 1) (argAt rest 2))
        oracle.opOutcome
  | "merge-pr" =>
    if argAt rest 0 = "" ∨ argAt rest 1 = "" ∨ argAt rest 2 = "" then
      ⟨.caughtError (usageMsg "merge-pr"), []⟩
    else
      simpleOp "mergePullRequest"
        (mergePullRequestRequest (argAt rest 0) (argAt rest 1) (argAt rest 2))
        oracle.opOutcome
  | "decline-pr" =>
    if argAt rest 0 = "" ∨ argAt rest 1 = "" ∨ argAt rest 2 = "" then
      ⟨.caughtError (usageMsg "decline-pr"), []⟩
    else
      simpleOp "declinePullRequest"
        (declinePullRequestRequest (argAt rest 0) (argAt rest 1) (argAt rest 2))
        oracle.opOutcome
  | "get-branching-model" =>
    if argAt rest 0 = "" ∨ argAt rest 1 = "" then
      ⟨.caughtError (usageMsg "get-branching-model"), []⟩
    else
      simpleOp "getRepositoryBranchingModel"
        (getRepositoryBranchingModelRequest (argAt rest 0) (argAt rest 1))
        oracle.opOutcome
  | "get-pr-diff" =>
    if argAt rest 0 = "" ∨ argAt rest 1 = "" ∨ argAt rest 2 = "" then
      ⟨.caughtError (usageMsg "get-pr-diff"), []⟩
    else
      simpleOp "getPullRequestDiff"
        (getPullRequestDiffRequest (argAt rest 0) (argAt rest 1) (argAt rest 2))
        oracle.opOutcome
  | "get-pr-comments" =>
    if argAt rest 0 = "" ∨ argAt rest 1 = "" ∨ argAt rest 2 = "" then
      ⟨.caughtError (usageMsg "get-pr-comments"), []⟩
    else
      simpleOp "getPullRequestComments"
        (getPullRequestCommentsRequest (argAt rest 0) (argAt rest 1) (argAt rest 2))
        oracle.opOutcome
  | _ => ⟨.unknownCommand command, []⟩

/-- `main` (`index-cli.ts` lines 155-395): no arguments prints the usage
banner and exits 1; otherwise the client is constructed (its constructor
may throw) and the command dispatched; every thrown error is caught,
printed as `Error: ...` and exits 1. -/
def mainRun (args : List String) (config : BitbucketConfig) (oracle : Oracle) : CliResult :=
  match args with
  | [] => ⟨.noArgsUsage, []⟩
  | command :: rest =>
    match clientInit config with
    | .error m => ⟨.caughtError m, []⟩
    | .ok ncfg => dispatch command rest ncfg oracle

/-! ## List and string helper lemmas -/

/-- A list is a prefix of itself followed by anything. -/
theorem isPrefixOf_append_self (l t : List Char) : l.isPrefixOf (l ++ t) = true := by
  induction l with
  | nil => simp [List.isPrefixOf]
  | cons x xs ih => simp [List.isPrefixOf, ih]

/-- `includes` holds on a larger haystack extended on the left. -/
theorem jsIncludesL_append_left (a b nd : List Char) (h : jsIncludesL b nd = true) :
    jsIncludesL (a ++ b) nd = true := by
  induction a with
  | nil => simpa using h
  | cons x t ih => simp [jsIncludesL, ih]

/-- A haystack starting with the needle includes it. -/
theorem jsIncludesL_self_append (nd t : List Char) : jsIncludesL (nd ++ t) nd = true := by
  cases nd with
  | nil =>
    cases t with
    | nil => rfl
    | cons x t' => simp [jsIncludesL, List.isPrefixOf]
  | cons c cs => simp [jsIncludesL, isPrefixOf_append_self]

/-- Data of an appended string. -/
theorem string_data_append (s t : String) : (s ++ t).data = s.data ++ t.data := rfl

/-! ## Claim C1 -/

/-- Claim C1: for a token containing neither a brace nor a dash that
parses as an integer build number, the resolver issues exactly one
lookup call — `listPipelineRuns` with limit 100 on the given workspace
and repository — and, when the fetched window contains a run with that
build number, returns that run's `uuid`. -/
theorem claim_C1_resolver_lookup (w r id : String) (n : Int)
    (oc : Except RawError PipelinesResponse)
    (h1 : jsIncludes id "\x7b" = false) (h2 : jsIncludes id "-" = false)
    (h3 : jsParseInt id = some n) :
    (resolvePipelineIdentifier w r id oc).2
      = [listPipelineRunsRequest w r (some 100) "" "" ""]
    ∧ ∀ (resp : PipelinesResponse) (p : PipelineRun),
        oc = .ok resp → findRun resp n = some p →
        (resolvePipelineIdentifier w r id oc).1 = .ok p.uuid := by
  constructor
  · simp only [resolvePipelineIdentifier, h1, h2, h3]
    cases oc with
    | error e => simp [runClientOp]
    | ok resp =>
      simp only [runClientOp]
      cases hf : findRun resp n <;> simp
  · intro resp p hoc hfind
    subst hoc
    simp [resolvePipelineIdentifier, h1, h2, h3, runClientOp, hfind]

/-- Witness for C1 at token `"60"` with a matching run in the window. -/
theorem claim_C1_witness :
    (resolvePipelineIdentifier "w" "r" "60"
        (.ok ⟨some [⟨60, "\x7babc\x7d"⟩]⟩)).2
      = [listPipelineRunsRequest "w" "r" (some 100) "" "" ""]
    ∧ (resolvePipelineIdentifier "w" "r" "60"
        (.ok ⟨some [⟨60, "\x7babc\x7d"⟩]⟩)).1 = .ok "\x7babc\x7d" := by
  have h := claim_C1_resolver_lookup "w" "r" "60" 60
    (.ok ⟨some [⟨60, "\x7babc\x7d"⟩]⟩) (by decide) (by decide) (by decide)
  exact ⟨h.1, h.2 ⟨some [⟨60, "\x7babc\x7d"⟩]⟩ ⟨60, "\x7babc\x7d"⟩ rfl (by decide)⟩

/-! ## Claim C2 -/

/-- Claim C2: a token containing a brace or a dash is returned unchanged
with zero network calls. -/
theorem claim_C2_canonical_passthrough (w r id : String)
    (oc : Except RawError PipelinesResponse)
    (h : (jsIncludes id "\x7b" || jsIncludes id "-") = true) :
    resolvePipelineIdentifier w r id oc = (.ok id, []) := by
  simp [resolvePipelineIdentifier, h]

/-- Witness for C2 at token `"{abc-123}"`. -/
theorem claim_C2_witness :
    resolvePipelineIdentifier "w" "r" "\x7babc-123\x7d" (.error (.axios none))
      = (.ok "\x7babc-123\x7d", []) :=
  claim_C2_canonical_passthrough "w" "r" "\x7babc-123\x7d" (.error (.axios none)) (by decide)

/-! ## Claim C3 -/

/-- Claim C3: a token that parses as a build number but matches no run
in the fetched window makes the resolver fail (no value is returned)
with the not-found message, which names the 100-run window and suggests
using the UUID directly. -/
theorem claim_C3_not_found (w r id : String) (n : Int)
    (oc : Except RawError PipelinesResponse) (resp : PipelinesResponse)
    (h1 : jsIncludes id "\x7b" = false) (h2 : jsIncludes id "-" = false)
    (h3 : jsParseInt id = some n) (hoc : oc = .ok resp)
    (hfind : findRun resp n = none) :
    (resolvePipelineIdentifier w r id oc).1 = .error (notFoundMsg n)
    ∧ jsIncludes (notFoundMsg n) "100" = true
    ∧ jsIncludes (notFoundMsg n) "UUID" = true := by
  subst hoc
  refine ⟨by simp [resolvePipelineIdentifier, h1, h2, h3, runClientOp, hfind], ?_, ?_⟩
  · show jsIncludesL (notFoundMsg n).data "100".data = true
    have hdata : (notFoundMsg n).data
        = ("Pipeline build #".data ++ (toString n).data ++ " not found in recent ".data)
          ++ ("100".data ++
            " pipelines. Try using the UUID directly or increase search range.".data) := by
      simp [notFoundMsg, string_data_append]
    rw [hdata]
    exact jsIncludesL_append_left _ _ _ (jsIncludesL_self_append _ _)
  · show jsIncludesL (notFoundMsg n).data "UUID".data = true
    have hdata : (notFoundMsg n).data
        = ("Pipeline build #".data ++ (toString n).data
            ++ " not found in recent 100 pipelines. Try using the ".data)
          ++ ("UUID".data ++ " directly or increase search range.".data) := by
      simp [notFoundMsg, string_data_append]
    rw [hdata]
    exact jsIncludesL_append_left _ _ _ (jsIncludesL_self_append _ _)

/-- Witness for C3 at token `"60"` with a window holding no matching
build number. -/
theorem claim_C3_witness :
    (resolvePipelineIdentifier "w" "r" "60" (.ok ⟨some [⟨61, "u"⟩]⟩)).1
      = .error (notFoundMsg 60)
    ∧ jsIncludes (notFoundMsg 60) "100" = true
    ∧ jsIncludes (notFoundMsg 60) "UUID" = true :=
  claim_C3_not_found "w" "r" "60" 60 (.ok ⟨some [⟨61, "u"⟩]⟩) ⟨some [⟨61, "u"⟩]⟩
    (by decide) (by decide) (by decide) rfl (by decide)

/-! ## Claim C4 -/

/-- Claim C4: a token containing neither a brace nor a dash that does
not parse as an integer is returned unchanged, with no failure and no
network call. -/
theorem claim_C4_fallback_passthrough (w r id : String)
    (oc : Except RawError PipelinesResponse)
    (h1 : jsIncludes id "\x7b" = false) (h2 : jsIncludes id "-" = false)
    (h3 : jsParseInt id = none) :
    resolvePipelineIdentifier w r id oc = (.ok id, []) := by
  simp [resolvePipelineIdentifier, h1, h2, h3]

/-- Witness for C4 at the non-numeric token `"foo"`. -/
theorem claim_C4_witness :
    resolvePipelineIdentifier "w" "r" "foo" (.error (.axios none)) = (.ok "foo", []) :=
  claim_C4_fallback_passthrough "w" "r" "foo" (.error (.axios none))
    (by decide) (by decide) (by decide)

/-! ## Claim C5 -/

/-- Claim C5: every client operation (all are instances of
`runClientOp`) fails with exactly the one normalized error produced by
`handleAxiosError` — whose message carries the operation name and, for
transport/HTTP failures with a response, the HTTP status and the
JSON-rendered server error body, and which names the operation and the
offending condition for any other failure — and never returns a partial
result: a success passes the complete response through. -/
theorem claim_C5_error_normalization :
    (∀ (α : Type) (operation : String) (req : ApiRequest) (e : RawError),
      runClientOp α operation req (.error e)
        = (.error (handleAxiosErrorMsg e operation), [req]))
    ∧ (∀ (α : Type) (operation : String) (req : ApiRequest) (a : α),
      runClientOp α operation req (.ok a) = (.ok a, [req]))
    ∧ (∀ (operation : String) (e : RawError),
      jsIncludes (handleAxiosErrorMsg e operation) operation = true)
    ∧ (∀ (operation : String) (resp : HttpErrorResponse),
      handleAxiosErrorMsg (.axios (some resp)) operation
        = "Bitbucket API error in " ++ operation ++ ": "
          ++ (toString resp.status ++ " " ++ resp.statusText ++ " - "
            ++ resp.data.stringify))
    ∧ (∀ (operation rendered : String),
      handleAxiosErrorMsg (.other rendered) operation
        = "Unexpected error in " ++ operation ++ ": " ++ rendered) := by
  refine ⟨fun α operation req e => rfl, fun α operation req a => rfl, ?_,
    fun operation resp => rfl, fun operation rendered => rfl⟩
  intro operation e
  show jsIncludesL (handleAxiosErrorMsg e operation).data operation.data = true
  cases e with
  | axios response =>
    have hdata : (handleAxiosErrorMsg (.axios response) operation).data
        = "Bitbucket API error in ".data
          ++ (operation.data ++ (": "
            ++ (match response with
                | some r => toString r.status ++ " " ++ r.statusText ++ " - "
                    ++ r.data.stringify
                | none => "undefined undefined - undefined")).data) := by
      simp [handleAxiosErrorMsg, string_data_append]
    rw [hdata]
    exact jsIncludesL_append_left _ _ _ (jsIncludesL_self_append _ _)
  | other rendered =>
    have hdata : (handleAxiosErrorMsg (.other rendered) operation).data
        = "Unexpected error in ".data ++ (operation.data ++ (": " ++ rendered).data) := by
      simp [handleAxiosErrorMsg, string_data_append]
    rw [hdata]
    exact jsIncludesL_append_left _ _ _ (jsIncludesL_self_append _ _)

/-! ## Claim C8 -/

/-- Claim C8: every pipeline operation taking a pipeline or step
identifier interpolates into its request path an identifier that starts
with a brace — the input unchanged when it already starts with one,
otherwise the input wrapped in braces. -/
theorem claim_C8_uuid_encoding (w r pu su : String) :
    jsStartsWith (encodedUuid pu) "\x7b" = true
    ∧ encodedUuid pu
      = (if jsStartsWith pu "\x7b" then pu else "\x7b" ++ pu ++ "\x7d")
    ∧ (getPipelineRunRequest w r pu).path
      = "/repositories/" ++ w ++ "/" ++ r ++ "/pipelines/" ++ encodedUuid pu
    ∧ (stopPipelineRequest w r pu).path
      = "/repositories/" ++ w ++ "/" ++ r ++ "/pipelines/" ++ encodedUuid pu
        ++ "/stopPipeline"
    ∧ (getPipelineStepsRequest w r pu).path
      = "/repositories/" ++ w ++ "/" ++ r ++ "/pipelines/" ++ encodedUuid pu ++ "/steps/"
    ∧ (getPipelineStepRequest w r pu su).path
      = "/repositories/" ++ w ++ "/" ++ r ++ "/pipelines/" ++ encodedUuid pu
        ++ "/steps/" ++ encodedUuid su
    ∧ (getPipelineStepLogsRequest w r pu su).path
      = "/repositories/" ++ w ++ "/" ++ r ++ "/pipelines/" ++ encodedUuid pu
        ++ "/steps/" ++ encodedUuid su ++ "/log"
    ∧ (getPipelineStepLogTailRequest w r pu su).path
      = "/repositories/" ++ w ++ "/" ++ r ++ "/pipelines/" ++ encodedUuid pu
        ++ "/steps/" ++ encodedUuid su ++ "/log" := by
  refine ⟨?_, rfl, rfl, rfl, rfl, rfl, rfl, rfl⟩
  by_cases h : jsStartsWith pu "\x7b" = true
  · simp [encodedUuid, h]
  · have hne : jsStartsWith pu "\x7b" = false := by
      cases hb : jsStartsWith pu "\x7b" with
      | false => rfl
      | true => exact absurd hb h
    show jsStartsWith (encodedUuid pu) "\x7b" = true
    rw [encodedUuid, if_neg (by simp [hne])]
    show ("\x7b".data).isPrefixOf ("\x7b" ++ pu ++ "\x7d").data = true
    rw [string_data_append, string_data_append]
    simp [List.isPrefixOf]

/-! ## Claim C10 -/

/-- Claim C10: for `listRepositories`, `getPullRequests` and
`listPipelineRuns`, a limit of 0 is treated exactly like an omitted
limit — the `pagelen` query parameter is not sent at all. -/
theorem claim_C10_zero_limit_omitted (w r ws st tb tt nf : String) :
    listRepositoriesRequest ws (some 0) nf = listRepositoriesRequest ws none nf
    ∧ "pagelen" ∉ (listRepositoriesRequest ws none nf).params.map Prod.fst
    ∧ getPullRequestsRequest w r st (some 0) = getPullRequestsRequest w r st none
    ∧ "pagelen" ∉ (getPullRequestsRequest w r st none).params.map Prod.fst
    ∧ listPipelineRunsRequest w r (some 0) st tb tt
      = listPipelineRunsRequest w r none st tb tt
    ∧ "pagelen" ∉ (listPipelineRunsRequest w r none st tb tt).params.map Prod.fst := by
  refine ⟨by simp [listRepositoriesRequest], ?_, by simp [getPullRequestsRequest], ?_,
    by simp [listPipelineRunsRequest], ?_⟩
  · simp only [listRepositoriesRequest]
    split <;> simp
  · simp only [getPullRequestsRequest]
    split <;> simp
  · simp only [listPipelineRunsRequest]
    split <;> split <;> simp

/-! ## CLI call-count and exit-code lemmas -/

/-- The resolver issues no call or exactly the one 100-run lookup. -/
theorem resolver_calls_cases (w r id : String) (oc : Except RawError PipelinesResponse) :
    (resolvePipelineIdentifier w r id oc).2 = []
    ∨ (resolvePipelineIdentifier w r id oc).2
      = [listPipelineRunsRequest w r (some 100) "" "" ""] := by
  cases hbr : (jsIncludes id "\x7b" || jsIncludes id "-") with
  | true => left; simp [resolvePipelineIdentifier, hbr]
  | false =>
    cases hp : jsParseInt id with
    | none => left; simp [resolvePipelineIdentifier, hbr, hp]
    | some n =>
      cases oc with
      | error e => right; simp [resolvePipelineIdentifier, hbr, hp, runClientOp]
      | ok resp =>
        cases hf : findRun resp n <;>
          (right; simp [resolvePipelineIdentifier, hbr, hp, runClientOp, hf])

/-- A simple command issues exactly its one request. -/
theorem simpleOp_calls (name : String) (req : ApiRequest) (oc : Except RawError Unit) :
    (simpleOp name req oc).calls = [req] := by
  cases oc <;> rfl

/-- A simple command reaches success only on a successful outcome. -/
theorem simpleOp_done (name : String) (req : ApiRequest) (oc : Except RawError Unit)
    (h : (simpleOp name req oc).outcome = .done) : oc = .ok () := by
  cases oc with
  | ok u => rfl
  | error e => simp [simpleOp, runClientOp] at h

/-- A resolver-backed command issues at most two calls, and when it
issues two the first is the resolver's 100-run lookup. -/
theorem resolveThen_calls (w r pid : String) (oracle : Oracle) (name : String)
    (mkReq : String → ApiRequest) :
    (resolveThen w r pid oracle name mkReq).calls.length ≤ 2
    ∧ ((resolveThen w r pid oracle name mkReq).calls.length = 2 →
      (resolveThen w r pid oracle name mkReq).calls.get? 0
        = some (listPipelineRunsRequest w r (some 100) "" "" "")) := by
  have hc := resolver_calls_cases w r pid oracle.resolveOutcome
  rcases hres : resolvePipelineIdentifier w r pid oracle.resolveOutcome with ⟨res, calls⟩
  rw [hres] at hc
  simp only at hc
  cases res with
  | error m =>
    rcases hc with hc | hc <;> simp [resolveThen, hres, hc]
  | ok uuid =>
    cases ho : oracle.opOutcome with
    | ok u =>
      rcases hc with hc | hc <;> simp [resolveThen, hres, hc, runClientOp, ho]
    | error e =>
      rcases hc with hc | hc <;> simp [resolveThen, hres, hc, runClientOp, ho]

/-- A resolver-backed command reaches success only on a successful
target-operation outcome. -/
theorem resolveThen_done (w r pid : String) (oracle : Oracle) (name : String)
    (mkReq : String → ApiRequest)
    (h : (resolveThen w r pid oracle name mkReq).outcome = .done) :
    oracle.opOutcome = .ok () := by
  rcases hres : resolvePipelineIdentifier w r pid oracle.resolveOutcome with ⟨res, calls⟩
  cases res with
  | error m => simp [resolveThen, hres] at h
  | ok uuid =>
    cases ho : oracle.opOutcome with
    | ok u => rfl
    | error e => simp [resolveThen, hres, runClientOp, ho] at h


/-- `listRepositories` issues at most one call. -/
theorem listReposOp_calls (cfg : BitbucketConfig) (ws : String) (lim : Option Int)
    (nf : String) (oc : Except RawError Unit) :
    (listRepositoriesOp cfg ws lim nf oc).2.length ≤ 1 := by
  simp only [listRepositoriesOp]
  split
  all_goals try split
  all_goals first
    | simp
    | (cases oc <;> simp [runClientOp])

/-- `listRepositories` returns a value only on a successful outcome. -/
theorem listReposOp_ok (cfg : BitbucketConfig) (ws : String) (lim : Option Int)
    (nf : String) (oc : Except RawError Unit)
    (h : (listRepositoriesOp cfg ws lim nf oc).1 = .ok ()) : oc = .ok () := by
  simp only [listRepositoriesOp] at h
  split at h
  all_goals try (split at h)
  all_goals first
    | (exfalso; exact absurd h (by simp))
    | (cases oc with
       | ok u => rfl
       | error e => simp [runClientOp] at h)

/-- The `list-repos` command issues at most one call. -/
theorem listReposCmd_calls (ncfg : BitbucketConfig) (ws limitStr : String)
    (oc : Except RawError Unit) :
    (listReposCmd ncfg ws limitStr oc).calls.length ≤ 1 := by
  have hlen := listReposOp_calls ncfg ws (limitArg limitStr) "" oc
  unfold listReposCmd
  rcases hop : listRepositoriesOp ncfg ws (limitArg limitStr) "" oc with ⟨res, calls⟩
  rw [hop] at hlen
  cases res <;> simpa using hlen

/-- The `list-repos` command succeeds only on a successful outcome. -/
theorem listReposCmd_done (ncfg : BitbucketConfig) (ws limitStr : String)
    (oc : Except RawError Unit)
    (h : (listReposCmd ncfg ws limitStr oc).outcome = .done) : oc = .ok () := by
  unfold listReposCmd at h
  rcases hop : listRepositoriesOp ncfg ws (limitArg limitStr) "" oc with ⟨res, calls⟩
  rw [hop] at h
  cases res with
  | ok u => exact listReposOp_ok _ _ _ _ _ (by rw [hop])
  | error m => simp at h

/-- Bounded-calls shape for a result with an empty call list. -/
theorem c6_empty (o : MainOutcome) :
    (CliResult.mk o []).calls.length ≤ 2
    ∧ ((CliResult.mk o []).calls.length = 2 →
      ∃ w r, (CliResult.mk o []).calls.get? 0
        = some (listPipelineRunsRequest w r (some 100) "" "" "")) :=
  ⟨by simp, fun h2 => absurd h2 (by simp)⟩

/-- Bounded-calls shape for a simple command. -/
theorem c6_simple (name : String) (req : ApiRequest) (oc : Except RawError Unit) :
    (simpleOp name req oc).calls.length ≤ 2
    ∧ ((simpleOp name req oc).calls.length = 2 →
      ∃ w r, (simpleOp name req oc).calls.get? 0
        = some (listPipelineRunsRequest w r (some 100) "" "" "")) := by
  rw [simpleOp_calls]
  exact ⟨by simp, fun h2 => absurd h2 (by simp)⟩

/-- Bounded-calls shape for a resolver-backed command. -/
theorem c6_resolveThen (w r pid : String) (oracle : Oracle) (name : String)
    (mkReq : String → ApiRequest) :
    (resolveThen w r pid oracle name mkReq).calls.length ≤ 2
    ∧ ((resolveThen w r pid oracle name mkReq).calls.length = 2 →
      ∃ w' r', (resolveThen w r pid oracle name mkReq).calls.get? 0
        = some (listPipelineRunsRequest w' r' (some 100) "" "" "")) :=
  ⟨(resolveThen_calls w r pid oracle name mkReq).1,
    fun h2 => ⟨w, r, (resolveThen_calls w r pid oracle name mkReq).2 h2⟩⟩

/-- Bounded-calls shape for any result with at most one call. -/
theorem c6_of_le_one (res : CliResult) (h : res.calls.length ≤ 1) :
    res.calls.length ≤ 2
    ∧ (res.calls.length = 2 →
      ∃ w r, res.calls.get? 0 = some (listPipelineRunsRequest w r (some 100) "" "" "")) :=
  ⟨by omega, fun h2 => absurd h2 (by omega)⟩

/-! ## Claim C6 -/

/-- Claim C6: every CLI invocation issues at most two network calls,
and when it issues two the first is the identifier-resolution lookup
(the 100-run `listPipelineRuns` window) that precedes the single target
operation. -/
theorem claim_C6_at_most_two_calls (args : List String) (config : BitbucketConfig)
    (oracle : Oracle) :
    (mainRun args config oracle).calls.length ≤ 2
    ∧ ((mainRun args config oracle).calls.length = 2 →
      ∃ w r, (mainRun args config oracle).calls.get? 0
        = some (listPipelineRunsRequest w r (some 100) "" "" "")) := by
  cases args with
  | nil => exact ⟨by simp [mainRun], fun h2 => absurd h2 (by simp [mainRun])⟩
  | cons command rest =>
    simp only [mainRun]
    cases hci : clientInit config with
    | error m => exact ⟨by simp, fun h2 => absurd h2 (by simp)⟩
    | ok ncfg =>
      simp only []
      unfold dispatch
      split
      all_goals try (split <;> first
        | exact c6_empty _
        | exact c6_simple _ _ _
        | exact c6_resolveThen _ _ _ _ _ _)
      all_goals try (exact c6_empty _)
      exact c6_of_le_one _ (listReposCmd_calls _ _ _ _)

/-- Success of a dispatched command needs a successful target operation. -/
theorem dispatch_done (command : String) (rest : List String) (ncfg : BitbucketConfig)
    (oracle : Oracle) (h : (dispatch command rest ncfg oracle).outcome = .done) :
    oracle.opOutcome = .ok () := by
  unfold dispatch at h
  split at h
  all_goals try (split at h <;> first
    | (exfalso; exact absurd h (by simp))
    | (exact simpleOp_done _ _ _ h)
    | (exact resolveThen_done _ _ _ _ _ _ h))
  all_goals try (exfalso; exact absurd h (by simp))
  exact listReposCmd_done _ _ _ _ h

/-- Success of a full invocation needs a successful target operation. -/
theorem mainRun_done (args : List String) (config : BitbucketConfig) (oracle : Oracle)
    (h : (mainRun args config oracle).outcome = .done) : oracle.opOutcome = .ok () := by
  cases args with
  | nil => simp [mainRun] at h
  | cons command rest =>
    simp only [mainRun] at h
    cases hci : clientInit config with
    | error m => rw [hci] at h; simp at h
    | ok ncfg => rw [hci] at h; exact dispatch_done command rest ncfg oracle h

/-- A recognized command with a missing required argument throws its
usage message before any network call. -/
theorem c7_usage (command : String) (rest : List String) (config ncfg : BitbucketConfig)
    (oracle : Oracle) (hci : clientInit config = .ok ncfg)
    (hmem : command ∈ commandsWithRequiredArgs)
    (hmiss : requiredOk command rest = false) :
    mainRun (command :: rest) config oracle
      = ⟨.caughtError (usageMsg command), []⟩
    ∧ jsStartsWith (usageMsg command) "Usage:" = true := by
  fin_cases hmem
  all_goals (
    simp only [requiredOk] at hmiss
    refine ⟨?_, by decide⟩
    simp only [mainRun, hci]
    simp only [dispatch]
    rw [if_pos (by simp at hmiss; tauto)])

/-- An unrecognized command reaches the default `switch` branch with no
network call. -/
theorem c7_unknown (command : String) (rest : List String) (config ncfg : BitbucketConfig)
    (oracle : Oracle) (hci : clientInit config = .ok ncfg)
    (hk : command ∉ knownCommands) :
    mainRun (command :: rest) config oracle = ⟨.unknownCommand command, []⟩ := by
  simp only [mainRun, hci]
  unfold dispatch
  split
  all_goals first
    | rfl
    | (exfalso; exact hk (by decide))

/-! ## Claim C7 -/

/-- Claim C7: a recognized command with an omitted required positional
argument prints its usage message to standard error and exits with
status 1 without any network call; and the process exits with status 1
on any failure — missing arguments, an API error, or an unknown
command. -/
theorem claim_C7_failure_exits :
    (∀ (command : String) (rest : List String) (config ncfg : BitbucketConfig)
       (oracle : Oracle),
      clientInit config = .ok ncfg →
      command ∈ commandsWithRequiredArgs →
      requiredOk command rest = false →
      mainRun (command :: rest) config oracle
        = ⟨.caughtError (usageMsg command), []⟩
      ∧ jsStartsWith (usageMsg command) "Usage:" = true
      ∧ stderrOf (.caughtError (usageMsg command)) = ["Error: " ++ usageMsg command]
      ∧ exitCodeOf (.caughtError (usageMsg command)) = 1)
    ∧ (∀ o : MainOutcome, o ≠ .done → exitCodeOf o = 1)
    ∧ (∀ (args : List String) (config : BitbucketConfig) (oracle : Oracle) (e : RawError),
      oracle.opOutcome = .error e →
      exitCodeOf (mainRun args config oracle).outcome = 1)
    ∧ (∀ (command : String) (rest : List String) (config ncfg : BitbucketConfig)
       (oracle : Oracle),
      clientInit config = .ok ncfg →
      command ∉ knownCommands →
      mainRun (command :: rest) config oracle = ⟨.unknownCommand command, []⟩
      ∧ exitCodeOf (.unknownCommand command) = 1) := by
  refine ⟨?_, ?_, ?_, ?_⟩
  · intro command rest config ncfg oracle hci hmem hmiss
    have h := c7_usage command rest config ncfg oracle hci hmem hmiss
    exact ⟨h.1, h.2, rfl, rfl⟩
  · intro o ho
    cases o <;> first | rfl | exact absurd rfl ho
  · intro args config oracle e he
    cases ho : (mainRun args config oracle).outcome with
    | done =>
      have := mainRun_done args config oracle ho
      rw [he] at this
      exact absurd this (by simp)
    | noArgsUsage => rfl
    | unknownCommand c => rfl
    | caughtError m => rfl
  · intro command rest config ncfg oracle hci hk
    exact ⟨c7_unknown command rest config ncfg oracle hci hk, rfl⟩

/-- Witness for C6 on a two-call invocation (`get-pipeline` with a bare
build number). -/
theorem claim_C6_witness :
    (mainRun ["get-pipeline", "w", "r", "60"]
        ⟨"x:y", some "t", none, none, none, none, none⟩
        ⟨.ok ⟨some [⟨60, "\x7bu\x7d"⟩]⟩, .ok ()⟩).calls.length ≤ 2
    ∧ ((mainRun ["get-pipeline", "w", "r", "60"]
        ⟨"x:y", some "t", none, none, none, none, none⟩
        ⟨.ok ⟨some [⟨60, "\x7bu\x7d"⟩]⟩, .ok ()⟩).calls.length = 2 →
      ∃ w r, (mainRun ["get-pipeline", "w", "r", "60"]
        ⟨"x:y", some "t", none, none, none, none, none⟩
        ⟨.ok ⟨some [⟨60, "\x7bu\x7d"⟩]⟩, .ok ()⟩).calls.get? 0
        = some (listPipelineRunsRequest w r (some 100) "" "" "")) :=
  claim_C6_at_most_two_calls ["get-pipeline", "w", "r", "60"]
    ⟨"x:y", some "t", none, none, none, none, none⟩
    ⟨.ok ⟨some [⟨60, "\x7bu\x7d"⟩]⟩, .ok ()⟩

/-- Witness for C7: a missing `get-pipeline` argument, a failing
`get-repo` API call and an unknown command, all at concrete inputs. -/
theorem claim_C7_witness :
    (mainRun ["get-pipeline", "w"] ⟨"x:y", some "t", none, none, none, none, none⟩
        ⟨.ok ⟨none⟩, .error (.axios none)⟩
      = ⟨.caughtError (usageMsg "get-pipeline"), []⟩
      ∧ jsStartsWith (usageMsg "get-pipeline") "Usage:" = true
      ∧ stderrOf (.caughtError (usageMsg "get-pipeline"))
        = ["Error: " ++ usageMsg "get-pipeline"]
      ∧ exitCodeOf (.caughtError (usageMsg "get-pipeline")) = 1)
    ∧ exitCodeOf .noArgsUsage = 1
    ∧ exitCodeOf (mainRun ["get-repo", "w", "r"]
        ⟨"x:y", some "t", none, none, none, none, none⟩
        ⟨.ok ⟨none⟩, .error (.axios none)⟩).outcome = 1
    ∧ (mainRun ["bogus"] ⟨"x:y", some "t", none, none, none, none, none⟩
        ⟨.ok ⟨none⟩, .error (.axios none)⟩ = ⟨.unknownCommand "bogus", []⟩
      ∧ exitCodeOf (.unknownCommand "bogus") = 1) :=
  ⟨claim_C7_failure_exits.1 "get-pipeline" ["w"]
      ⟨"x:y", some "t", none, none, none, none, none⟩
      ⟨"x:y", some "t", none, none, none, none, none⟩
      ⟨.ok ⟨none⟩, .error (.axios none)⟩ rfl (by decide) (by decide),
    claim_C7_failure_exits.2.1 .noArgsUsage (by decide),
    claim_C7_failure_exits.2.2.1 ["get-repo", "w", "r"]
      ⟨"x:y", some "t", none, none, none, none, none⟩
      ⟨.ok ⟨none⟩, .error (.axios none)⟩ (.axios none) rfl,
    claim_C7_failure_exits.2.2.2 "bogus" []
      ⟨"x:y", some "t", none, none, none, none, none⟩
      ⟨"x:y", some "t", none, none, none, none, none⟩
      ⟨.ok ⟨none⟩, .error (.axios none)⟩ rfl (by decide)⟩

/-! ## takeWhile / dropWhile / strip helper lemmas -/

/-- Elements of a `takeWhile` satisfy the predicate. -/
theorem takeWhile_mem {p : Char → Bool} {l : List Char} :
    ∀ a ∈ l.takeWhile p, p a = true := by
  induction l with
  | nil => intro a ha; simp [List.takeWhile] at ha
  | cons x t ih =>
    intro a ha
    rw [List.takeWhile] at ha
    cases hx : p x with
    | false => rw [hx] at ha; simp at ha
    | true =>
      rw [hx] at ha
      rcases List.mem_cons.mp ha with rfl | hm
      · exact hx
      · exact ih a hm

/-- `takeWhile` over an all-satisfying list is the list. -/
theorem takeWhile_all_of_all {p : Char → Bool} {l : List Char}
    (h : ∀ a ∈ l, p a = true) : l.takeWhile p = l := by
  induction l with
  | nil => rfl
  | cons x t ih =>
    rw [List.takeWhile, h x (by simp)]
    simp only []
    rw [ih (fun a ha => h a (by simp [ha]))]

/-- `dropWhile` over an all-satisfying list is empty. -/
theorem dropWhile_all_of_all {p : Char → Bool} {l : List Char}
    (h : ∀ a ∈ l, p a = true) : l.dropWhile p = [] := by
  induction l with
  | nil => rfl
  | cons x t ih =>
    rw [List.dropWhile, h x (by simp)]
    exact ih (fun a ha => h a (by simp [ha]))

/-- `takeWhile` past an all-satisfying prefix stops at a failing head. -/
theorem takeWhile_app_stop {p : Char → Bool} {l₁ l₂ : List Char} {b : Char}
    (h : ∀ a ∈ l₁, p a = true) (hb : p b = false) :
    (l₁ ++ b :: l₂).takeWhile p = l₁ := by
  induction l₁ with
  | nil => simp [List.takeWhile, hb]
  | cons x t ih =>
    rw [List.cons_append, List.takeWhile, h x (by simp)]
    simp only []
    rw [ih (fun a ha => h a (by simp [ha]))]

/-- `dropWhile` past an all-satisfying prefix stops at a failing head. -/
theorem dropWhile_app_stop {p : Char → Bool} {l₁ l₂ : List Char} {b : Char}
    (h : ∀ a ∈ l₁, p a = true) (hb : p b = false) :
    (l₁ ++ b :: l₂).dropWhile p = b :: l₂ := by
  induction l₁ with
  | nil => simp [List.dropWhile, hb]
  | cons x t ih =>
    rw [List.cons_append, List.dropWhile, h x (by simp)]
    exact ih (fun a ha => h a (by simp [ha]))

/-- The head of a `dropWhile` residue fails the predicate. -/
theorem dropWhile_head_false {p : Char → Bool} {l t : List Char} {b : Char}
    (h : l.dropWhile p = b :: t) : p b = false := by
  induction l with
  | nil => simp [List.dropWhile] at h
  | cons x t' ih =>
    rw [List.dropWhile] at h
    cases hx : p x with
    | true => rw [hx] at h; exact ih h
    | false => rw [hx] at h; cases h; exact hx

/-- `dropWhile` through an append with a failing stopper element. -/
theorem dropWhile_append_stopper {p : Char → Bool} {u v : List Char} {c : Char}
    (hc : p c = false) : (u ++ c :: v).dropWhile p = u.dropWhile p ++ c :: v := by
  induction u with
  | nil => simp [List.dropWhile, hc]
  | cons x t ih =>
    rw [List.cons_append, List.dropWhile, List.dropWhile]
    cases hx : p x with
    | true => simpa using ih
    | false => simp

/-- `dropWhile` applied twice is `dropWhile` once. -/
theorem dropWhile_idem {p : Char → Bool} {l : List Char} :
    (l.dropWhile p).dropWhile p = l.dropWhile p := by
  induction l with
  | nil => rfl
  | cons x t ih =>
    rw [List.dropWhile]
    cases hx : p x with
    | true => exact ih
    | false => simp [List.dropWhile, hx]

/-- Slash-stripping distributes over a non-slash element. -/
theorem stripL_append_snoc (xs : List Char) {bs : List Char} {c : Char}
    (hc : (c == '/') = false) :
    stripTrailingSlashesL (xs ++ c :: bs) = xs ++ c :: stripTrailingSlashesL bs := by
  unfold stripTrailingSlashesL
  rw [List.reverse_append, List.reverse_cons]
  rw [List.append_assoc, List.singleton_append]
  rw [dropWhile_append_stopper (p := fun x => x == '/') hc]
  rw [List.reverse_append, List.reverse_cons, List.reverse_reverse]
  simp

/-- Slash-stripping passes over a non-slash head. -/
theorem stripL_cons_ne {l : List Char} {c : Char} (hc : (c == '/') = false) :
    stripTrailingSlashesL (c :: l) = c :: stripTrailingSlashesL l :=
  stripL_append_snoc [] hc

/-- Slash-stripping passes over an all-non-slash prefix. -/
theorem stripL_append_all {as bs : List Char} (h : ∀ a ∈ as, (a == '/') = false) :
    stripTrailingSlashesL (as ++ bs) = as ++ stripTrailingSlashesL bs := by
  induction as with
  | nil => simp
  | cons x t ih =>
    rw [List.cons_append, stripL_cons_ne (h x (by simp)), ih (fun a ha => h a (by simp [ha]))]
    rfl

/-- Slash-stripping is idempotent. -/
theorem stripL_idem {l : List Char} :
    stripTrailingSlashesL (stripTrailingSlashesL l) = stripTrailingSlashesL l := by
  unfold stripTrailingSlashesL
  rw [List.reverse_reverse, dropWhile_idem]

/-- The stripped list is a prefix of the original. -/
theorem stripL_prefixOf (l : List Char) : stripTrailingSlashesL l <+: l := by
  have h : l.reverse.dropWhile (fun c => c == '/') <:+ l.reverse := List.dropWhile_suffix _
  have := List.reverse_prefix.mpr h
  rwa [List.reverse_reverse] at this

/-- A list whose stripped form is empty is all slashes. -/
theorem stripL_eq_nil {l : List Char} (h : stripTrailingSlashesL l = []) :
    ∀ a ∈ l, (a == '/') = true := by
  unfold stripTrailingSlashesL at h
  rw [List.reverse_eq_nil_iff] at h
  rw [List.dropWhile_eq_nil_iff] at h
  intro a ha
  exact h a (by simp [ha])

/-- The stripped list is no longer than the original. -/
theorem stripL_length_le (l : List Char) :
    (stripTrailingSlashesL l).length ≤ l.length :=
  (stripL_prefixOf l).length_le

/-- An `includes` hit decomposes the haystack around the needle. -/
theorem decomp_of_jsIncludesL {hay nd : List Char} (h : jsIncludesL hay nd = true) :
    ∃ a b, hay = a ++ nd ++ b := by
  induction hay with
  | nil =>
    rw [jsIncludesL] at h
    rw [List.isEmpty_iff] at h
    exact ⟨[], [], by simp [h]⟩
  | cons x t ih =>
    rw [jsIncludesL, Bool.or_eq_true] at h
    rcases h with h | h
    · rcases List.isPrefixOf_iff_prefix.mp h with ⟨k, hk⟩
      exact ⟨[], k, by simp [hk]⟩
    · rcases ih h with ⟨a, b, hab⟩
      exact ⟨x :: a, b, by simp [hab]⟩

/-- A decomposed haystack satisfies `includes`. -/
theorem jsIncludesL_of_decomp (a nd b : List Char) :
    jsIncludesL (a ++ nd ++ b) nd = true := by
  rw [List.append_assoc]
  exact jsIncludesL_append_left _ _ _ (jsIncludesL_self_append _ _)

/-- A `/2.0` occurrence survives trailing-slash stripping. -/
theorem includes_d20_strip {pa : List Char}
    (h : jsIncludesL pa "/2.0".data = true) :
    jsIncludesL (stripTrailingSlashesL pa) "/2.0".data = true := by
  rcases decomp_of_jsIncludesL h with ⟨a, b, rfl⟩
  have hsplit : a ++ "/2.0".data ++ b = (a ++ ['/', '2', '.']) ++ '0' :: b := by
    simp
  rw [hsplit, stripL_append_snoc _ (by decide)]
  have : (a ++ ['/', '2', '.']) ++ '0' :: stripTrailingSlashesL b
      = a ++ "/2.0".data ++ stripTrailingSlashesL b := by simp
  rw [this]
  exact jsIncludesL_of_decomp _ _ _

/-- A nonempty needle is never included in an empty haystack. -/
theorem jsIncludesL_nil_d20 : jsIncludesL [] "/2.0".data = false := by decide

/-- An authority character is not a slash. -/
theorem slash_false_of_notAuthDelim {a : Char} (h : notAuthDelim a = true) :
    (a == '/') = false := by
  unfold notAuthDelim at h
  cases hx : (a == '/') with
  | false => rfl
  | true => rw [hx] at h; simp at h

/-- An authority delimiter that is not a path delimiter is the slash. -/
theorem slash_of_delims {d : Char} (h1 : notAuthDelim d = false)
    (h2 : notPathDelim d = true) : (d == '/') = true := by
  unfold notAuthDelim at h1
  unfold notPathDelim at h2
  cases hx : (d == '/') with
  | true => rfl
  | false =>
    rw [hx] at h1
    simp only [Bool.not_eq_false', Bool.false_or] at h1
    rw [h1] at h2
    simp at h2

/-- Inversion of a successful URL parse: the scheme is the nonempty
all-scheme-character prefix with an alphabetic head, followed by a colon
and the part `parseAfterScheme` consumes. -/
theorem parseURLChars_inv {cs sch host pa : List Char}
    (h : parseURLChars cs = some (sch, host, pa)) :
    ∃ r, cs.takeWhile isSchemeChar = sch
      ∧ cs.dropWhile isSchemeChar = ':' :: r
      ∧ parseAfterScheme r = (host, pa)
      ∧ (∀ a ∈ sch, isSchemeChar a = true)
      ∧ ∃ c s, sch = c :: s ∧ c.isAlpha = true := by
  unfold parseURLChars at h
  cases htk : cs.takeWhile isSchemeChar with
  | nil => rw [htk] at h; simp at h
  | cons c s =>
    cases hdp : cs.dropWhile isSchemeChar with
    | nil => rw [htk, hdp] at h; simp at h
    | cons d r =>
      rw [htk, hdp] at h
      simp only [] at h
      cases hcond : (c.isAlpha && d == ':') with
      | false => rw [hcond] at h; simp at h
      | true =>
        rw [hcond] at h
        simp only [eq_self_iff_true, if_true, Option.some.injEq, Prod.mk.injEq] at h
        obtain ⟨h1, h2⟩ := h
        have hab : c.isAlpha = true ∧ (d == ':') = true := by
          rw [Bool.and_eq_true] at hcond; exact hcond
        have hd : d = ':' := eq_of_beq hab.2
        refine ⟨r, h1, by rw [hd], h2, ?_, c, s, h1.symm, hab.1⟩
        rw [← h1, ← htk]
        exact takeWhile_mem

/-- `takeWhile` is empty only when the head fails. -/
theorem takeWhile_nil_head {p : Char → Bool} {x : Char} {t : List Char}
    (h : (x :: t).takeWhile p = []) : p x = false := by
  rw [List.takeWhile] at h
  cases hx : p x with
  | false => rfl
  | true => rw [hx] at h; simp at h

/-- Stripping a non-authority string cannot create an authority: the
parsed host stays empty. -/
theorem parse_strip_host_nil_opaque {d1 d2 : Char} (r2 : List Char)
    (hc : (d1 == '/' && d2 == '/') = false) :
    ∃ pa', parseAfterScheme (stripTrailingSlashesL (d1 :: d2 :: r2)) = ([], pa') := by
  obtain ⟨k, hk⟩ := stripL_prefixOf (d1 :: d2 :: r2)
  cases hs : stripTrailingSlashesL (d1 :: d2 :: r2) with
  | nil => exact ⟨_, rfl⟩
  | cons x1 zz =>
    cases zz with
    | nil => exact ⟨_, rfl⟩
    | cons x2 z =>
      rw [hs] at hk
      simp only [List.cons_append, List.cons.injEq] at hk
      obtain ⟨rfl, rfl, _⟩ := hk
      exact ⟨(x1 :: x2 :: z).takeWhile notPathDelim, by simp [parseAfterScheme, hc]⟩

/-- Stripping a URL with an empty authority keeps the host empty. -/
theorem parse_strip_host_nil_auth {r2 : List Char}
    (hauth : r2.takeWhile notAuthDelim = []) :
    ∃ pa', parseAfterScheme (stripTrailingSlashesL ('/' :: '/' :: r2)) = ([], pa') := by
  obtain ⟨k, hk⟩ := stripL_prefixOf ('/' :: '/' :: r2)
  cases hs : stripTrailingSlashesL ('/' :: '/' :: r2) with
  | nil => exact ⟨_, rfl⟩
  | cons x1 zz =>
    cases zz with
    | nil => exact ⟨_, rfl⟩
    | cons x2 z =>
      rw [hs] at hk
      simp only [List.cons_append, List.cons.injEq] at hk
      obtain ⟨rfl, rfl, hzk⟩ := hk
      have hz : z.takeWhile notAuthDelim = [] := by
        cases z with
        | nil => rfl
        | cons y yt =>
          cases r2 with
          | nil => simp at hzk
          | cons w wt =>
            simp only [List.cons_append, List.cons.injEq] at hzk
            obtain ⟨rfl, _⟩ := hzk
            have hw : notAuthDelim y = false := takeWhile_nil_head hauth
            rw [List.takeWhile, hw]
      refine ⟨pathnameOfL ((z.dropWhile notAuthDelim).takeWhile notPathDelim), ?_⟩
      simp [parseAfterScheme, hz, hostOfAuth]

/-- Stripping trailing slashes from the part after the scheme preserves
the parsed host, and changes the parsed pathname at most by stripping
its own trailing slashes (with the empty-path default); a URL without a
host keeps its empty host. -/
theorem parseAfterScheme_strip {r host pa : List Char}
    (h : parseAfterScheme r = (host, pa)) :
    ∃ pa', parseAfterScheme (stripTrailingSlashesL r) = (host, pa')
      ∧ (pa' = pa ∨ pa' = pathnameOfL (stripTrailingSlashesL pa) ∨ host = []) := by
  cases r with
  | nil => exact ⟨pa, h, Or.inl rfl⟩
  | cons d1 rr =>
    cases rr with
    | nil =>
      have h1 : host = [] := by
        have hfst := congrArg Prod.fst h
        simpa [parseAfterScheme] using hfst.symm
      subst h1
      cases hd : (d1 == '/') with
      | true =>
        have hd1 : d1 = '/' := eq_of_beq hd
        subst hd1
        have hs : stripTrailingSlashesL ['/'] = [] := by decide
        rw [hs]
        exact ⟨[], rfl, Or.inr (Or.inr rfl)⟩
      | false =>
        have hs : stripTrailingSlashesL [d1] = [d1] := stripL_cons_ne hd
        rw [hs]
        exact ⟨pa, h, Or.inl rfl⟩
    | cons d2 r2 =>
      cases hc : (d1 == '/' && d2 == '/') with
      | false =>
        have h1 : host = [] := by
          have hfst := congrArg Prod.fst h
          simpa [parseAfterScheme, hc] using hfst.symm
        subst h1
        obtain ⟨pa', hp⟩ := parse_strip_host_nil_opaque r2 hc
        exact ⟨pa', hp, Or.inr (Or.inr rfl)⟩
      | true =>
        have hab : (d1 == '/') = true ∧ (d2 == '/') = true := by
          rw [Bool.and_eq_true] at hc; exact hc
        have hd1 : d1 = '/' := eq_of_beq hab.1
        have hd2 : d2 = '/' := eq_of_beq hab.2
        subst hd1; subst hd2
        cases hauth : r2.takeWhile notAuthDelim with
        | nil =>
          have h1 : host = [] := by
            have hfst := congrArg Prod.fst h
            simpa [parseAfterScheme, hauth, hostOfAuth] using hfst.symm
          subst h1
          obtain ⟨pa', hp⟩ := parse_strip_host_nil_auth hauth
          exact ⟨pa', hp, Or.inr (Or.inr rfl)⟩
        | cons a autht =>
          have hallauth : ∀ x ∈ (a :: autht), notAuthDelim x = true := by
            rw [← hauth]; exact takeWhile_mem
          have hnsauth : ∀ x ∈ (a :: autht), (x == '/') = false :=
            fun x hx => slash_false_of_notAuthDelim (hallauth x hx)
          have hhost : hostOfAuth (a :: autht) = host := by
            have hfst := congrArg Prod.fst h
            simpa [parseAfterScheme, hauth] using hfst
          have hpa : pathnameOfL ((r2.dropWhile notAuthDelim).takeWhile notPathDelim)
              = pa := by
            have hsnd := congrArg Prod.snd h
            simpa [parseAfterScheme] using hsnd
          have hr2 : ('/' :: '/' :: r2 : List Char)
              = ['/', '/'] ++ a :: (autht ++ r2.dropWhile notAuthDelim) := by
            conv_lhs =>
              rw [← List.takeWhile_append_dropWhile (p := notAuthDelim) (l := r2), hauth]
            simp
          have hstrip : stripTrailingSlashesL ('/' :: '/' :: r2)
              = '/' :: '/' :: ((a :: autht)
                  ++ stripTrailingSlashesL (r2.dropWhile notAuthDelim)) := by
            rw [hr2, stripL_append_snoc _ (hnsauth a (by simp)),
              stripL_append_all (fun x hx => hnsauth x (by simp [hx]))]
            simp
          rw [hstrip]
          cases hdt : r2.dropWhile notAuthDelim with
          | nil =>
            rw [hdt] at hpa
            refine ⟨pa, ?_, Or.inl rfl⟩
            have hz : stripTrailingSlashesL ([] : List Char) = [] := rfl
            rw [hz, List.append_nil]
            rw [← hpa]
            simp [parseAfterScheme, takeWhile_all_of_all hallauth,
              dropWhile_all_of_all hallauth, hhost]
          | cons d t' =>
            have hd_false : notAuthDelim d = false := dropWhile_head_false hdt
            rw [hdt] at hpa
            cases hstail : stripTrailingSlashesL (d :: t') with
            | nil =>
              have halls : ∀ x ∈ (d :: t'), (x == '/') = true := stripL_eq_nil hstail
              have htw : (d :: t').takeWhile notPathDelim = d :: t' :=
                takeWhile_all_of_all (fun x hx => by
                  have hx' : x = '/' := eq_of_beq (halls x hx)
                  subst hx'; decide)
              have hpa2 : pa = d :: t' := by
                rw [← hpa, htw, pathnameOfL]
                simp
              refine ⟨['/'], ?_, Or.inr (Or.inl ?_)⟩
              · simp only [List.append_nil]
                simp [parseAfterScheme, takeWhile_all_of_all hallauth,
                  dropWhile_all_of_all hallauth, hhost, pathnameOfL]
              · rw [hpa2, hstail]
                rfl
            | cons e z =>
              have hpre := stripL_prefixOf (d :: t')
              rw [hstail] at hpre
              obtain ⟨k, hk⟩ := hpre
              simp only [List.cons_append, List.cons.injEq] at hk
              obtain ⟨rfl, hzk⟩ := hk
              have h1 : ((a :: autht) ++ e :: z).takeWhile notAuthDelim = a :: autht :=
                takeWhile_app_stop hallauth hd_false
              have h2 : ((a :: autht) ++ e :: z).dropWhile notAuthDelim = e :: z :=
                dropWhile_app_stop hallauth hd_false
              rw [List.cons_append] at h1 h2
              cases hnd : notPathDelim e with
              | false =>
                refine ⟨pathnameOfL [], ?_, Or.inl ?_⟩
                · have htwz : (e :: z).takeWhile notPathDelim = [] := by
                    rw [List.takeWhile, hnd]
                  simp [parseAfterScheme, h1, h2, hhost, htwz]
                · have htwt : (e :: t').takeWhile notPathDelim = [] := by
                    rw [List.takeWhile, hnd]
                  rw [← hpa, htwt]
              | true =>
                cases hqf : (e :: t').dropWhile notPathDelim with
                | nil =>
                  rw [List.dropWhile_eq_nil_iff] at hqf
                  have htw : (e :: t').takeWhile notPathDelim = e :: t' :=
                    takeWhile_all_of_all hqf
                  have hpa2 : pa = e :: t' := by
                    rw [← hpa, htw, pathnameOfL]
                    simp
                  have hallz : ∀ x ∈ (e :: z), notPathDelim x = true := by
                    intro x hx
                    have hsub : (e :: z : List Char) <+: (e :: t') := by
                      rw [← hstail]; exact stripL_prefixOf _
                    exact hqf x (hsub.subset hx)
                  have htwz : (e :: z).takeWhile notPathDelim = e :: z :=
                    takeWhile_all_of_all hallz
                  refine ⟨pathnameOfL (e :: z), ?_, Or.inr (Or.inl ?_)⟩
                  · simp [parseAfterScheme, h1, h2, hhost, htwz]
                  · rw [hpa2, hstail]
                | cons q qt =>
                  have hq_false : notPathDelim q = false := dropWhile_head_false hqf
                  have hqs : (q == '/') = false := by
                    cases hqq : (q == '/') with
                    | false => rfl
                    | true =>
                      have : q = '/' := eq_of_beq hqq
                      subst this
                      simp [notPathDelim] at hq_false
                  have hsplit : (e :: t' : List Char)
                      = (e :: t').takeWhile notPathDelim ++ q :: qt := by
                    conv_lhs =>
                      rw [← List.takeWhile_append_dropWhile (p := notPathDelim)
                        (l := e :: t'), hqf]
                  have hstail2 : stripTrailingSlashesL (e :: t')
                      = (e :: t').takeWhile notPathDelim
                        ++ q :: stripTrailingSlashesL qt := by
                    conv_lhs => rw [hsplit]
                    exact stripL_append_snoc _ hqs
                  have hdz : (e :: z : List Char)
                      = (e :: t').takeWhile notPathDelim
                        ++ q :: stripTrailingSlashesL qt := by
                    rw [← hstail, hstail2]
                  have hallpr : ∀ x ∈ (e :: t').takeWhile notPathDelim,
                      notPathDelim x = true := takeWhile_mem
                  have htwz : (e :: z).takeWhile notPathDelim
                      = (e :: t').takeWhile notPathDelim := by
                    rw [hdz]
                    exact takeWhile_app_stop hallpr hq_false
                  refine ⟨pathnameOfL ((e :: t').takeWhile notPathDelim), ?_, Or.inl ?_⟩
                  · simp [parseAfterScheme, h1, h2, hhost, htwz]
                  · exact hpa

/-- Stripping trailing slashes preserves parse success, the scheme and
the host; the pathname changes at most by its own trailing slashes. -/
theorem parseURLChars_strip {cs sch host pa : List Char}
    (h : parseURLChars cs = some (sch, host, pa)) :
    ∃ pa', parseURLChars (stripTrailingSlashesL cs) = some (sch, host, pa')
      ∧ (pa' = pa ∨ pa' = pathnameOfL (stripTrailingSlashesL pa) ∨ host = []) := by
  obtain ⟨r, htk, hdp, hps, hall, c, s, hsch, halpha⟩ := parseURLChars_inv h
  subst hsch
  have hcs : cs = (c :: s) ++ ':' :: r := by
    conv_lhs =>
      rw [← List.takeWhile_append_dropWhile (p := isSchemeChar) (l := cs), htk, hdp]
  have hns : ∀ x ∈ c :: s, (x == '/') = false := by
    intro x hx
    cases hxx : (x == '/') with
    | false => rfl
    | true => exact absurd (hall x hx) (by rw [eq_of_beq hxx]; decide)
  have hstrip : stripTrailingSlashesL cs
      = (c :: s) ++ ':' :: stripTrailingSlashesL r := by
    rw [hcs, stripL_append_all hns, stripL_cons_ne (by decide)]
  obtain ⟨pa', hp, hd⟩ := parseAfterScheme_strip hps
  refine ⟨pa', ?_, hd⟩
  rw [hstrip]
  have htk2 : ((c :: s) ++ ':' :: stripTrailingSlashesL r).takeWhile isSchemeChar
      = c :: s := takeWhile_app_stop hall (by decide)
  have hdp2 : ((c :: s) ++ ':' :: stripTrailingSlashesL r).dropWhile isSchemeChar
      = ':' :: stripTrailingSlashesL r := dropWhile_app_stop hall (by decide)
  unfold parseURLChars
  rw [htk2, hdp2]
  simp [halpha, hp]

/-- Appending `/2.0` leaves nothing to strip. -/
theorem strip_noop_d20 (as : List Char) :
    stripTrailingSlashesL (as ++ "/2.0".data) = as ++ "/2.0".data := by
  have hd : ("/2.0".data : List Char) = ['/', '2', '.', '0'] := rfl
  rw [hd]
  have h1 : as ++ ['/', '2', '.', '0'] = (as ++ ['/', '2', '.']) ++ '0' :: ([] : List Char) := by
    simp
  rw [h1, stripL_append_snoc _ (by decide)]
  simp [stripTrailingSlashesL]

/-- Reparsing a rewritten `scheme://api.bitbucket.org/2.0` URL. -/
theorem parse_scheme_api {c : Char} {s : List Char}
    (hall : ∀ a ∈ c :: s, isSchemeChar a = true) (halpha : c.isAlpha = true) :
    parseURLChars ((c :: s) ++ ':' :: "//api.bitbucket.org/2.0".data)
      = some (c :: s, "api.bitbucket.org".data, "/2.0".data) := by
  have htk : ((c :: s) ++ ':' :: "//api.bitbucket.org/2.0".data).takeWhile isSchemeChar
      = c :: s := takeWhile_app_stop hall (by decide)
  have hdp : ((c :: s) ++ ':' :: "//api.bitbucket.org/2.0".data).dropWhile isSchemeChar
      = ':' :: "//api.bitbucket.org/2.0".data := dropWhile_app_stop hall (by decide)
  unfold parseURLChars
  rw [htk, hdp]
  have hps : parseAfterScheme "//api.bitbucket.org/2.0".data
      = ("api.bitbucket.org".data, "/2.0".data) := by decide
  simp [halpha, hps]

/-- `stripTrailingSlashes` is idempotent. -/
theorem stripTrailingSlashes_idem (s : String) :
    stripTrailingSlashes (stripTrailingSlashes s) = stripTrailingSlashes s := by
  unfold stripTrailingSlashes
  rw [show (String.mk (stripTrailingSlashesL s.data)).data = stripTrailingSlashesL s.data
    from rfl]
  rw [stripL_idem]

/-- A configuration whose base URL does not parse is left unchanged. -/
theorem normalize_parse_none {x : BitbucketConfig}
    (hx : parseURLChars x.baseUrl.data = none) : normalizeBitbucketConfig x = x := by
  unfold normalizeBitbucketConfig parseURL
  rw [hx]

/-- A base URL already normalized to the API host with the `/2.0`
suffix and no trailing slash is a fixed point. -/
theorem normalize_fixes_api {x : BitbucketConfig}
    (hx : x.baseUrl = "https://api.bitbucket.org/2.0") :
    normalizeBitbucketConfig x = x := by
  have hp : parseURL x.baseUrl
      = some ⟨"https:", "api.bitbucket.org", "/2.0"⟩ := by
    rw [hx]; decide
  unfold normalizeBitbucketConfig
  rw [hp]
  have hstrip : stripTrailingSlashes x.baseUrl = x.baseUrl := by
    rw [hx]; decide
  simp [show (("api.bitbucket.org" : String) == "bitbucket.org") = false from by decide,
    show jsIncludes "/2.0" "/2.0" = true from by decide, hstrip]

/-- A base URL of the shape `scheme://api.bitbucket.org/2.0` (with a
well-formed scheme) is a fixed point. -/
theorem normalize_fixes_scheme_api {x : BitbucketConfig} {c : Char} {s : List Char}
    (hall : ∀ a ∈ c :: s, isSchemeChar a = true) (halpha : c.isAlpha = true)
    (hx : x.baseUrl.data = (c :: s) ++ ':' :: "//api.bitbucket.org/2.0".data) :
    normalizeBitbucketConfig x = x := by
  have hp : parseURL x.baseUrl
      = some ⟨String.mk ((c :: s) ++ [':']), String.mk "api.bitbucket.org".data,
          String.mk "/2.0".data⟩ := by
    unfold parseURL
    rw [hx, parse_scheme_api hall halpha]
  unfold normalizeBitbucketConfig
  rw [hp]
  have hdata : stripTrailingSlashesL x.baseUrl.data = x.baseUrl.data := by
    rw [hx]
    have hsplit : (c :: s) ++ ':' :: "//api.bitbucket.org/2.0".data
        = ((c :: s) ++ ':' :: "//api.bitbucket.org".data) ++ "/2.0".data := by
      simp [show ("//api.bitbucket.org/2.0".data : List Char)
        = "//api.bitbucket.org".data ++ "/2.0".data from rfl]
    rw [hsplit, strip_noop_d20]
  have hstrip : stripTrailingSlashes x.baseUrl = x.baseUrl := by
    unfold stripTrailingSlashes
    rw [hdata]
  simp [show (String.mk "api.bitbucket.org".data == ("bitbucket.org" : String)) = false
      from by decide,
    show jsIncludes (String.mk "/2.0".data) "/2.0" = true from by decide, hstrip]

/-- `normalizeBitbucketConfig` is idempotent. -/
theorem normalizeBitbucketConfig_idem (c : BitbucketConfig) :
    normalizeBitbucketConfig (normalizeBitbucketConfig c) = normalizeBitbucketConfig c := by
  cases hp : parseURLChars c.baseUrl.data with
  | none =>
    have h1 : normalizeBitbucketConfig c = c := normalize_parse_none hp
    rw [h1]
    exact h1
  | some triple =>
    obtain ⟨sch, hostpa⟩ := triple
    obtain ⟨host, pa⟩ := hostpa
    have hpu : parseURL c.baseUrl
        = some ⟨String.mk (sch ++ [':']), String.mk host, String.mk pa⟩ := by
      unfold parseURL
      rw [hp]
    obtain ⟨r, htk, hdp, hps, hall, cch, scht, hsch, halpha⟩ := parseURLChars_inv hp
    cases hcond1 : (String.mk host == "bitbucket.org"
        && decide ((String.mk pa).length > 1)) with
    | true =>
      have hh : String.mk host = "bitbucket.org" := by
        rw [Bool.and_eq_true] at hcond1
        exact eq_of_beq hcond1.1
      have hc2 : (String.mk host == "api.bitbucket.org") = false := by
        rw [hh]; decide
      have hb : (normalizeBitbucketConfig c).baseUrl
          = "https://api.bitbucket.org/2.0" := by
        unfold normalizeBitbucketConfig
        rw [hpu]
        simp only [hcond1, hc2, Bool.false_and, Bool.false_eq_true, eq_self_iff_true,
          if_true, if_false]
        rfl
      exact normalize_fixes_api hb
    | false =>
      cases hcond2 : (String.mk host == "api.bitbucket.org"
          && !(jsIncludes (String.mk pa) "/2.0")) with
      | true =>
        subst hsch
        have hh : String.mk host = "api.bitbucket.org" := by
          rw [Bool.and_eq_true] at hcond2
          exact eq_of_beq hcond2.1
        have hhd : host = "api.bitbucket.org".data := congrArg String.data hh
        have hcat : (String.mk ((cch :: scht) ++ [':']) ++ "//" ++ String.mk host
            ++ "/2.0").data
            = (cch :: scht) ++ ':' :: "//api.bitbucket.org/2.0".data := by
          rw [string_data_append, string_data_append, string_data_append, hhd]
          simp [show ("//api.bitbucket.org/2.0".data : List Char)
            = "//".data ++ ("api.bitbucket.org".data ++ "/2.0".data) from rfl]
        have hnoop : stripTrailingSlashesL
            ((cch :: scht) ++ ':' :: "//api.bitbucket.org/2.0".data)
            = (cch :: scht) ++ ':' :: "//api.bitbucket.org/2.0".data := by
          have hsplit : (cch :: scht) ++ ':' :: "//api.bitbucket.org/2.0".data
              = ((cch :: scht) ++ ':' :: "//api.bitbucket.org".data) ++ "/2.0".data := by
            simp [show ("//api.bitbucket.org/2.0".data : List Char)
              = "//api.bitbucket.org".data ++ "/2.0".data from rfl]
          rw [hsplit, strip_noop_d20]
        have hb : (normalizeBitbucketConfig c).baseUrl.data
            = (cch :: scht) ++ ':' :: "//api.bitbucket.org/2.0".data := by
          unfold normalizeBitbucketConfig
          rw [hpu]
          simp only [hcond1, hcond2, Bool.false_eq_true, if_false, if_true]
          show (stripTrailingSlashes (String.mk ((cch :: scht) ++ [':']) ++ "//"
            ++ String.mk host ++ "/2.0")).data = _
          unfold stripTrailingSlashes
          rw [show ∀ l, (String.mk l).data = l from fun l => rfl]
          rw [hcat, hnoop]
        exact normalize_fixes_scheme_api hall halpha hb
      | false =>
        have hnC : normalizeBitbucketConfig c
            = { c with baseUrl := stripTrailingSlashes c.baseUrl } := by
          unfold normalizeBitbucketConfig
          rw [hpu]
          simp only [hcond1, hcond2, Bool.false_eq_true, if_false]
        rw [hnC]
        obtain ⟨pa', hp2, hdisj⟩ := parseURLChars_strip hp
        have hpu2 : parseURL ({ c with baseUrl := stripTrailingSlashes c.baseUrl }
            : BitbucketConfig).baseUrl
            = some ⟨String.mk (sch ++ [':']), String.mk host, String.mk pa'⟩ := by
          unfold parseURL
          rw [show ({ c with baseUrl := stripTrailingSlashes c.baseUrl }
            : BitbucketConfig).baseUrl.data = stripTrailingSlashesL c.baseUrl.data
            from rfl]
          rw [hp2]
        have hc1' : (String.mk host == "bitbucket.org"
            && decide ((String.mk pa').length > 1)) = false := by
          cases hhb : (String.mk host == "bitbucket.org") with
          | false => simp [hhb]
          | true =>
            have hlenb : decide ((String.mk pa).length > 1) = false := by
              cases hd2 : decide ((String.mk pa).length > 1) with
              | false => rfl
              | true => rw [hhb, hd2] at hcond1; simp at hcond1
            have hlen : (String.mk pa).length ≤ 1 := by
              have := of_decide_eq_false hlenb
              omega
            rcases hdisj with rfl | rfl | hhost0
            · rw [hlenb]; rfl
            · have hlen' : (String.mk (pathnameOfL (stripTrailingSlashesL pa))).length
                  ≤ 1 := by
                unfold pathnameOfL
                split
                · simp [String.length]
                · show (stripTrailingSlashesL pa).length ≤ 1
                  exact le_trans (stripL_length_le pa) hlen
              have hdf : decide ((String.mk (pathnameOfL (stripTrailingSlashesL pa))).length
                  > 1) = false := decide_eq_false (by omega)
              rw [hdf]; rfl
            · rw [hhost0] at hhb
              exact absurd hhb (by decide)
        have hc2' : (String.mk host == "api.bitbucket.org"
            && !(jsIncludes (String.mk pa') "/2.0")) = false := by
          cases hhb : (String.mk host == "api.bitbucket.org") with
          | false => simp [hhb]
          | true =>
            have hinc : jsIncludes (String.mk pa) "/2.0" = true := by
              cases hi : jsIncludes (String.mk pa) "/2.0" with
              | true => rfl
              | false => rw [hhb, hi] at hcond2; simp at hcond2
            have hincL : jsIncludesL pa "/2.0".data = true := hinc
            rcases hdisj with rfl | rfl | hhost0
            · rw [hinc]; rfl
            · have hincs : jsIncludesL (stripTrailingSlashesL pa) "/2.0".data = true :=
                includes_d20_strip hincL
              have hnonnil : stripTrailingSlashesL pa ≠ [] := by
                intro hnil
                rw [hnil] at hincs
                exact absurd hincs (by decide)
              have hpath : pathnameOfL (stripTrailingSlashesL pa)
                  = stripTrailingSlashesL pa := by
                unfold pathnameOfL
                rw [if_neg (by simpa using hnonnil)]
              have hji : jsIncludes (String.mk (pathnameOfL (stripTrailingSlashesL pa)))
                  "/2.0" = true := by
                rw [hpath]
                exact hincs
              rw [hji]; rfl
            · rw [hhost0] at hhb
              exact absurd hhb (by decide)
        unfold normalizeBitbucketConfig
        rw [hpu2]
        simp only [hc1', hc2', Bool.false_eq_true, if_false]
        rw [stripTrailingSlashes_idem]

/-! ## Claim C9 -/

/-- Claim C9: `normalizeBitbucketConfig` is idempotent; in particular a
base URL already normalized to the API host with the `/2.0` suffix and
no trailing slash is left unchanged, as is any configuration whose base
URL fails to parse. -/
theorem claim_C9_normalize_idempotent :
    (∀ c : BitbucketConfig,
      normalizeBitbucketConfig (normalizeBitbucketConfig c)
        = normalizeBitbucketConfig c)
    ∧ (∀ c : BitbucketConfig, c.baseUrl = "https://api.bitbucket.org/2.0" →
      normalizeBitbucketConfig c = c)
    ∧ (∀ c : BitbucketConfig, parseURL c.baseUrl = none →
      normalizeBitbucketConfig c = c) := by
  refine ⟨normalizeBitbucketConfig_idem, fun c hc => normalize_fixes_api hc,
    fun c hc => ?_⟩
  apply normalize_parse_none
  cases hx : parseURLChars c.baseUrl.data with
  | none => rfl
  | some v =>
    exfalso
    unfold parseURL at hc
    rw [hx] at hc
    obtain ⟨a, bd⟩ := v
    obtain ⟨b, d⟩ := bd
    simp at hc

/-- Witness for C9 at a `bitbucket.org` team URL, the normalized API
URL, and an unparsable base URL. -/
theorem claim_C9_witness :
    normalizeBitbucketConfig (normalizeBitbucketConfig
        ⟨"https://bitbucket.org/team/repo/", none, none, none, none, none, none⟩)
      = normalizeBitbucketConfig
        ⟨"https://bitbucket.org/team/repo/", none, none, none, none, none, none⟩
    ∧ normalizeBitbucketConfig
        ⟨"https://api.bitbucket.org/2.0", some "t", none, none, none, none, none⟩
      = ⟨"https://api.bitbucket.org/2.0", some "t", none, none, none, none, none⟩
    ∧ normalizeBitbucketConfig ⟨"not a url", none, none, none, none, none, none⟩
      = ⟨"not a url", none, none, none, none, none, none⟩ :=
  ⟨claim_C9_normalize_idempotent.1 _,
   claim_C9_normalize_idempotent.2.1 _ rfl,
   claim_C9_normalize_idempotent.2.2 _ (by decide)⟩
